import Mathlib

/-!
# STDCNV: the STD sprite-sheet converter

A shallow embedding of the two variants of the converter,
`SDL2Version.cpp` (namespace `SDL2Version`) and `main2.cpp` (namespace `Main2`).

Modelling conventions.

* A C `for (i = 0; i < n; i++)` loop is `forLoop n body` over an explicit state.
* A stdio stream is a list of bytes with a read position; `getc` returns an `int`,
  either the byte as a value in `0..255` or `EOF = -1`.
* `Uint8` and `Uint32` are natural numbers reduced modulo `2^8` and `2^32`.
* A C string is a `String`, one `Char` per C `char`; `sprintf` is the formatted
  string, and `fitsBuffer` says whether it fits the destination array together
  with its terminating byte. Where it does not fit, C leaves the behaviour
  undefined; the model does not follow the overflow into the neighbouring memory.
* The global `count` lies in memory behind `temp2`. A title that does not fit
  `temp2` overruns it; what the overrun leaves in `count` depends on where the
  platform places the two globals and is read from the `Env`. A title that fits
  leaves `count` at its initial value 0.
* The libraries (SDL2, Allegro, stdio) are external: every call that matters is
  recorded, in program order, as a `Call`, and what the outside world answers is
  read from an `Env`.
-/

namespace STDCNV

/-! ## Shared definitions -/

/-- The loop `for (i = 0; i < n; i++) body(i)` as a state transformer. -/
def forLoop {σ : Type} (n : Nat) (body : Nat → σ → σ) (s : σ) : σ :=
  (List.range n).foldl (fun acc i => body i acc) s

/-- A stdio stream opened with `fopen(_, "rb")`: the bytes of the file and the read position. -/
structure FILE where
  data : List (Fin 256)
  pos : Nat
deriving DecidableEq

/-- The stdio end-of-file sentinel. -/
def EOF : Int := -1

/-- The file system as `fopen` sees it: the bytes of a readable file, `none` when the
path cannot be opened. -/
abbrev FileSystem := String → Option (List (Fin 256))

/-- The call `fopen(filename, "rb")`: `none` is the `NULL` result. -/
def fopen (fs : FileSystem) (filename : String) : Option FILE :=
  (fs filename).map (fun d => { data := d, pos := 0 })

/-- The call `getc(fp)`: the next byte as an `int` in `0..255`, or `EOF` at the end of the stream. -/
def getc (fp : FILE) : Int × FILE :=
  match fp.data[fp.pos]? with
  | some b => ((b.val : Int), { fp with pos := fp.pos + 1 })
  | none => (EOF, fp)

/-- Conversion of an `int` to `Uint8` / `unsigned char`: reduction modulo `2^8`. -/
def toUint8 (c : Int) : Nat := (c % 256).toNat

/-- The `Uint32` left shift. -/
def shl32 (a k : Nat) : Nat := (a <<< k) % 2 ^ 32

/-- Whether the string `s` and its terminating byte fit a `char` array of `cap` bytes. -/
def fitsBuffer (cap : Nat) (s : String) : Prop := s.length + 1 ≤ cap

instance (cap : Nat) (s : String) : Decidable (fitsBuffer cap s) := by
  unfold fitsBuffer; infer_instance

/-- The window title: `sprintf(temp2, "STDCNV.EXE -> [%s] : Press ESC to quit", argv[1])`. -/
def windowTitle (argv1 : String) : String :=
  "STDCNV.EXE -> [" ++ argv1 ++ "] : Press ESC to quit"

/-- The size of the global `char temp2[37]`. -/
def temp2Size : Nat := 37

/-- The destination path: `sprintf(temp, "%s/%s_%d.bmp", argv[2], argv[2], iindex)`. -/
def bmpPath (argv2 : String) (iindex : Nat) : String :=
  argv2 ++ "/" ++ argv2 ++ "_" ++ toString iindex ++ ".bmp"

/-! ## SDL2Version.cpp -/

namespace SDL2Version

/-- The channel masks of a surface (the part of `SDL_PixelFormat` the program sets). -/
structure SDL_PixelFormat where
  BitsPerPixel : Nat
  Rmask : Nat
  Gmask : Nat
  Bmask : Nat
  Amask : Nat
deriving DecidableEq

/-- An `SDL_Surface`: format, width, height and the pixel words, row after row. -/
structure SDL_Surface where
  format : SDL_PixelFormat
  w : Nat
  h : Nat
  pixels : List Nat
deriving DecidableEq

/-- The call `SDL_CreateRGBSurface(flags, width, height, depth, R, G, B, A)`, which
allocates a zero-filled pixel buffer. -/
def SDL_CreateRGBSurface (_flags width height depth Rmask Gmask Bmask Amask : Nat) :
    SDL_Surface :=
  { format := { BitsPerPixel := depth, Rmask := Rmask, Gmask := Gmask,
                Bmask := Bmask, Amask := Amask }
    w := width
    h := height
    pixels := List.replicate (width * height) 0 }

/-- The position of the lowest set bit of a channel mask (its shift). -/
def maskShift (mask : Nat) : Nat :=
  ((List.range 32).find? (fun k => mask.testBit k)).getD 0

/-- A channel of a pixel word read through its mask. -/
def channel (pixel mask : Nat) : Nat := (pixel &&& mask) >>> maskShift mask

/-- The components `(R, G, B, A)` of a pixel word under a format. -/
def SDL_GetRGBA (pixel : Nat) (fmt : SDL_PixelFormat) : Nat × Nat × Nat × Nat :=
  (channel pixel fmt.Rmask, channel pixel fmt.Gmask, channel pixel fmt.Bmask,
    channel pixel fmt.Amask)

/-- The kind of a message box. -/
inductive MessageBoxFlag where
  | SDL_MESSAGEBOX_ERROR
  | SDL_MESSAGEBOX_INFORMATION
deriving DecidableEq

/-- The external calls of the program that are recorded, in program order. The `printf`
of an SDL failure is recorded with its format, the text of `SDL_GetError` left out. -/
inductive Call where
  | SDL_ShowSimpleMessageBox (flags : MessageBoxFlag) (title message : String)
  | SDL_Init
  | printf (text : String)
  | SDL_CreateWindow (title : String)
  | SDL_CreateRenderer
  | SDL_CreateRGBSurface (index : Nat)
  | fopen (filename : String)
  | fclose
  | SDL_SetRenderDrawColor
  | SDL_RenderClear
  | SDL_CreateTextureFromSurface (index : Nat)
  | SDL_RenderCopy (index x y : Nat)
  | SDL_RenderPresent
  | SDL_SaveBMP (iindex : Nat) (surface : Option SDL_Surface) (file : String)
  | SDL_DestroyTexture (index : Nat)
  | SDL_FreeSurface (index : Nat)
  | SDL_DestroyRenderer
  | SDL_DestroyWindow
  | SDL_Quit
deriving DecidableEq

/-- One iteration of the innermost loop, as observed from outside: which sprite and
pixel position it wrote, what `getc` returned and which word was stored. -/
structure PixelStore where
  sprite_index : Nat
  pixelPos : Nat
  read : Int
  color : Nat
deriving DecidableEq

/-- The state the loops of `Load_STD_File` run over. -/
structure LoadState where
  fp : FILE
  images : List SDL_Surface
  log : List PixelStore

/-- The word `(r << 24) | (g << 16) | (b << 8) | 0xFF` for `r = g = b = colorIndex`. -/
def packColor (colorIndex : Nat) : Nat :=
  let r := colorIndex % 2 ^ 32
  let g := colorIndex % 2 ^ 32
  let b := colorIndex % 2 ^ 32
  shl32 r 24 ||| shl32 g 16 ||| shl32 b 8 ||| 0xFF

/-- The body of the innermost loop of `Load_STD_File`. `SDL_LockSurface` and
`SDL_UnlockSurface` do not touch the pixels. A store through a missing surface or past
the end of the pixel buffer has no defined behaviour in C; the model leaves the buffers
as they are there, and `SheetOK` rules both out. -/
def loadPixel (sprite_index y x : Nat) (s : LoadState) : LoadState :=
  let rd := getc s.fp
  let colorIndex := toUint8 rd.1
  match s.images[sprite_index]? with
  | none => { s with fp := rd.2 }
  | some img =>
    let pixelPos := y * img.w + x
    let color := packColor colorIndex
    { fp := rd.2
      images := s.images.set sprite_index { img with pixels := img.pixels.set pixelPos color }
      log := s.log ++ [{ sprite_index := sprite_index, pixelPos := pixelPos,
                         read := rd.1, color := color }] }

/-- What `Load_STD_File` leaves behind: the sprite buffers, its external calls, and the
log of its reads and pixel writes. -/
structure LoadResult where
  images : List SDL_Surface
  calls : List Call
  log : List PixelStore

/-- The three nested loops of `Load_STD_File`, over sprites, rows and columns. -/
def loadLoops (fp : FILE) (images : List SDL_Surface) : LoadState :=
  forLoop 100
    (fun sprite_index =>
      forLoop 16 (fun y =>
        forLoop 16 (fun x => loadPixel sprite_index y x)))
    { fp := fp, images := images, log := [] }

/-- The function `Load_STD_File(filename)` over the global `images`. -/
def Load_STD_File (fs : FileSystem) (filename : String) (images : List SDL_Surface) :
    LoadResult :=
  match fopen fs filename with
  | none =>
    { images := images
      calls := [Call.fopen filename, Call.printf ("Failed to open file: " ++ filename ++ "\n")]
      log := [] }
  | some fp =>
    let s := loadLoops fp images
    { images := s.images, calls := [Call.fopen filename, Call.fclose], log := s.log }

/-- The format `main` asks for: 32 bits per pixel, R, G, B, A from the top byte down. -/
def rgba32 : SDL_PixelFormat :=
  { BitsPerPixel := 32, Rmask := 0xFF000000, Gmask := 0x00FF0000, Bmask := 0x0000FF00,
    Amask := 0x000000FF }

/-- The first loop of `main`: `images[index] = SDL_CreateRGBSurface(0, 16, 16, 32, ...)`.
The global array is filled in index order, so the assignment to `images[index]` is an
append; allocation is taken to succeed. -/
def createSurfaces : List SDL_Surface :=
  forLoop 100
    (fun _index images =>
      images ++ [SDL_CreateRGBSurface 0 16 16 32 0xFF000000 0x00FF0000 0x0000FF00 0x000000FF])
    []

/-- The display loops of `main`: one texture and one `SDL_RenderCopy` per grid cell. -/
def renderLoop : List Call :=
  forLoop 10
    (fun y =>
      forLoop 10 (fun x calls =>
        let index := x + y * 10
        calls ++ [Call.SDL_CreateTextureFromSurface index,
                  Call.SDL_RenderCopy index (x * 32) (y * 32)]))
    []

/-- An event delivered by `SDL_PollEvent`. -/
inductive SDL_Event where
  | SDL_QUIT
  | SDL_KEYDOWN (sym : Nat)
  | other
deriving DecidableEq

/-- The key code of the escape key. -/
def SDLK_ESCAPE : Nat := 27

/-- What the outside world answers to the program. -/
structure Env where
  /-- the files `fopen` can read -/
  fs : FileSystem
  /-- the result of `SDL_Init` -/
  SDL_Init_result : Int
  /-- whether `SDL_CreateWindow` returns a window -/
  windowCreated : Bool
  /-- whether `SDL_CreateRenderer` returns a renderer -/
  rendererCreated : Bool
  /-- the result of `SDL_SaveBMP` at the call for sprite `iindex` -/
  SDL_SaveBMP_result : Nat → Int
  /-- the text of `SDL_GetError` after the failed call for sprite `iindex` -/
  SDL_GetError : Nat → String
  /-- the events pending at each round of the wait loop -/
  events : List (List SDL_Event)
  /-- the value the global `count` holds after `sprintf` has written into `temp2` a title
  that does not fit it -/
  countAfterOverrun : String → Int

/-- The value of the global `int count = 0` once `sprintf` has written the title into
`temp2`: untouched when the title fits, else what the overrun has left in it. -/
def countAfterTitle (env : Env) (title : String) : Int :=
  if fitsBuffer temp2Size title then 0 else env.countAfterOverrun title

/-- The state of the save loop: the global `count` (an `int`; the model does not follow
`count++` past `INT_MAX`) and the calls made so far. -/
structure SaveState where
  count : Int
  calls : List Call

/-- The text of the error box of the save loop:
`sprintf(errorMsg, "Error saving bitmap #%d to %s/%s_%d.bmp: %s", ...)`. -/
def saveErrorMsg (env : Env) (argv2 : String) (iindex : Nat) : String :=
  "Error saving bitmap #" ++ toString iindex ++ " to " ++ argv2 ++ "/" ++ argv2 ++ "_" ++
    toString iindex ++ ".bmp: " ++ env.SDL_GetError iindex

/-- The error box of the save loop for sprite `iindex`. -/
def saveErrorBox (env : Env) (argv2 : String) (iindex : Nat) : Call :=
  Call.SDL_ShowSimpleMessageBox MessageBoxFlag.SDL_MESSAGEBOX_ERROR "Save Error"
    (saveErrorMsg env argv2 iindex)

/-- The body of the save loop of `main`. -/
def saveBody (env : Env) (argv2 : String) (images : List SDL_Surface) (iindex : Nat)
    (s : SaveState) : SaveState :=
  let temp := bmpPath argv2 iindex
  let result := env.SDL_SaveBMP_result iindex
  let calls := s.calls ++ [Call.SDL_SaveBMP iindex images[iindex]? temp]
  if result ≠ 0 then
    { count := s.count, calls := calls ++ [saveErrorBox env argv2 iindex] }
  else
    { count := s.count + 1, calls := calls }

/-- The save loop of `main`, started from the value `count0` the global `count` holds when
the loop is entered. -/
def saveLoop (env : Env) (argv2 : String) (images : List SDL_Surface) (count0 : Int) :
    SaveState :=
  forLoop 100 (saveBody env argv2 images) { count := count0, calls := [] }

/-- One round of the inner loop `while (SDL_PollEvent(&e) != 0)`: all pending events
are taken, and `quit` is raised by `SDL_QUIT` or by the escape key. -/
def pollAll (pending : List SDL_Event) (quit : Bool) : Bool :=
  pending.foldl
    (fun q e =>
      match e with
      | SDL_Event.SDL_QUIT => true
      | SDL_Event.SDL_KEYDOWN sym => if sym = SDLK_ESCAPE then true else q
      | SDL_Event.other => q)
    quit

/-- The loop `while (!quit)`: `true` when it ends, `false` when no round of events ever
raises `quit` and the loop spins forever. -/
def waitForQuit : List (List SDL_Event) → Bool
  | [] => false
  | pending :: later => if pollAll pending false then true else waitForQuit later

/-- The usage message of `main`. -/
def usageBox : Call :=
  Call.SDL_ShowSimpleMessageBox MessageBoxFlag.SDL_MESSAGEBOX_INFORMATION "STDCNV.EXE"
    "use: STDCNV.EXE STDFILE SAVEDIR\nProgrammed by Franco Gaetan"

/-- The closing message of `main`: `sprintf(successMsg, "Saved %d bitmaps in %s", ...)`. -/
def successBox (count : Int) (argv2 : String) : Call :=
  Call.SDL_ShowSimpleMessageBox MessageBoxFlag.SDL_MESSAGEBOX_INFORMATION "Success"
    ("Saved " ++ toString count ++ " bitmaps in " ++ argv2)

/-- The cleanup loop of `main`; every texture and surface is taken to exist. -/
def cleanupLoop : List Call :=
  forLoop 100
    (fun i calls => calls ++ [Call.SDL_DestroyTexture i, Call.SDL_FreeSurface i])
    []

/-- What a run of `main` amounts to: its external calls, the sprite buffers and the
global `count` at the end, and the value returned (`none` when the wait loop never ends). -/
structure Outcome where
  calls : List Call
  images : List SDL_Surface
  count : Int
  exit : Option Int

/-- The function `main(args, argv)`, with `args = argv.length`. -/
def main (env : Env) (argv : List String) : Outcome :=
  let args := argv.length
  if args < 3 then
    { calls := [usageBox], images := [], count := 0, exit := some (-1) }
  else if env.SDL_Init_result < 0 then
    { calls := [Call.SDL_Init, Call.printf "SDL could not initialize! SDL_Error: %s\n"]
      images := [], count := 0, exit := some (-1) }
  else
    let argv1 := argv.getD 1 ""
    let argv2 := argv.getD 2 ""
    let temp2 := windowTitle argv1
    let count0 := countAfterTitle env temp2
    if env.windowCreated = false then
      { calls := [Call.SDL_Init, Call.SDL_CreateWindow temp2,
                  Call.printf "Window could not be created! SDL_Error: %s\n", Call.SDL_Quit]
        images := [], count := count0, exit := some (-1) }
    else if env.rendererCreated = false then
      { calls := [Call.SDL_Init, Call.SDL_CreateWindow temp2, Call.SDL_CreateRenderer,
                  Call.printf "Renderer could not be created! SDL_Error: %s\n",
                  Call.SDL_DestroyWindow, Call.SDL_Quit]
        images := [], count := count0, exit := some (-1) }
    else
      let images := createSurfaces
      let loaded := Load_STD_File env.fs argv1 images
      let saved := saveLoop env argv2 loaded.images count0
      let calls :=
        [Call.SDL_Init, Call.SDL_CreateWindow temp2, Call.SDL_CreateRenderer] ++
          (List.range 100).map Call.SDL_CreateRGBSurface ++
          loaded.calls ++
          [Call.SDL_SetRenderDrawColor, Call.SDL_RenderClear] ++ renderLoop ++
          [Call.SDL_RenderPresent] ++
          saved.calls ++ [successBox saved.count argv2]
      if waitForQuit env.events then
        { calls := calls ++ cleanupLoop ++
            [Call.SDL_DestroyRenderer, Call.SDL_DestroyWindow, Call.SDL_Quit]
          images := loaded.images, count := saved.count, exit := some 0 }
      else
        { calls := calls, images := loaded.images, count := saved.count, exit := none }

end SDL2Version

/-! ## main2.cpp -/

namespace Main2

/-- An Allegro 8-bit `BITMAP`: `line[y][x]` is an `unsigned char`. -/
structure BITMAP where
  w : Nat
  h : Nat
  line : List (List Nat)
deriving DecidableEq

/-- One iteration of the innermost loop, as observed from outside. -/
structure PixelStore where
  sprite_index : Nat
  y : Nat
  x : Nat
  read : Int
  stored : Nat
deriving DecidableEq

/-- The state the loops of `Load_STD_File` run over. -/
structure LoadState where
  fp : FILE
  images : List BITMAP
  log : List PixelStore

/-- The body of the innermost loop: `images[sprite_index]->line[y][x] = getc(fp)`. A store
outside the bitmap has no defined behaviour in C; the model leaves the bitmaps as they
are there, and `BitmapsOK` rules it out. -/
def loadPixel (sprite_index y x : Nat) (s : LoadState) : LoadState :=
  let rd := getc s.fp
  match s.images[sprite_index]? with
  | none => { s with fp := rd.2 }
  | some bmp =>
    match bmp.line[y]? with
    | none => { s with fp := rd.2 }
    | some row =>
      let v := toUint8 rd.1
      { fp := rd.2
        images := s.images.set sprite_index { bmp with line := bmp.line.set y (row.set x v) }
        log := s.log ++ [{ sprite_index := sprite_index, y := y, x := x,
                           read := rd.1, stored := v }] }

/-- What `Load_STD_File` leaves behind. -/
structure LoadResult where
  images : List BITMAP
  log : List PixelStore

/-- The three nested loops of `Load_STD_File`, over sprites, rows and columns. -/
def loadLoops (fp : FILE) (images : List BITMAP) : LoadState :=
  forLoop 100
    (fun sprite_index =>
      forLoop 16 (fun y =>
        forLoop 16 (fun x => loadPixel sprite_index y x)))
    { fp := fp, images := images, log := [] }

/-- The function `Load_STD_File(filename)` of `main2.cpp` over the global `images`. The
result of `fopen` is not checked there: on a path that does not open, `getc` is applied
to `NULL`, which has no defined behaviour (`none`). -/
def Load_STD_File (fs : FileSystem) (filename : String) (images : List BITMAP) :
    Option LoadResult :=
  match fopen fs filename with
  | none => none
  | some fp =>
    let s := loadLoops fp images
    some { images := s.images, log := s.log }

/-- The external calls of the save loop of `main2.cpp`, in program order. -/
inductive Call where
  | save_bitmap (iindex : Nat) (bmp : Option BITMAP) (filename : String)
  | allegro_message (text : String)
deriving DecidableEq

/-- The state of the save loop: the global `count` and the calls made so far. -/
structure SaveState where
  count : Int
  calls : List Call

/-- The size of the local `char temp[20]` of the save loop of `main2.cpp`. -/
def tempSize : Nat := 20

/-- The body of the save loop of `main2.cpp`; `save_bitmap_result` is the result of
`save_bitmap` at the call for sprite `iindex`. -/
def saveBody (save_bitmap_result : Nat → Int) (argv2 : String) (images : List BITMAP)
    (iindex : Nat) (s : SaveState) : SaveState :=
  let temp := bmpPath argv2 iindex
  let result := save_bitmap_result iindex
  let calls := s.calls ++ [Call.save_bitmap iindex images[iindex]? temp]
  if result ≠ 0 then
    { count := s.count
      calls := calls ++ [Call.allegro_message
        ("error saving bitmap #" ++ toString iindex ++ " to " ++ argv2 ++ "/" ++ argv2 ++
          "_" ++ toString iindex ++ ".bmp")] }
  else
    { count := s.count + 1, calls := calls }

/-- The save loop of `main2.cpp`, started from the value `count0` the global `count` holds
when the loop is entered. -/
def saveLoop (save_bitmap_result : Nat → Int) (argv2 : String) (images : List BITMAP)
    (count0 : Int) : SaveState :=
  forLoop 100 (saveBody save_bitmap_result argv2 images) { count := count0, calls := [] }

end Main2

/-! ## Specification-side definitions -/

/-- The value `getc` returns at the `k`-th read (counted from 0) of a stream holding `data`. -/
def readAt (data : List (Fin 256)) (k : Nat) : Int :=
  match data[k]? with
  | some b => (b.val : Int)
  | none => EOF

namespace SDL2Version

/-- The log entry of the `n`-th iteration of the innermost loop on a stream holding `data`. -/
def logEntry (data : List (Fin 256)) (n : Nat) : PixelStore :=
  { sprite_index := n / 256, pixelPos := n % 256, read := readAt data n,
    color := packColor (toUint8 (readAt data n)) }

/-- The invariant of the loops of `Load_STD_File` after `k` iterations of the innermost
body, on a stream holding `data` and started from the buffers `init`. -/
def LoadInv (data : List (Fin 256)) (init : List SDL_Surface) (k : Nat) (s : LoadState) :
    Prop :=
  s.fp.data = data ∧ s.fp.pos = min k data.length ∧
  s.log = (List.range k).map (logEntry data) ∧
  s.images.length = init.length ∧
  ∀ i, i < 100 → ∃ img img0, s.images[i]? = some img ∧ init[i]? = some img0 ∧
    img.format = img0.format ∧ img.w = 16 ∧ img.h = img0.h ∧ img.pixels.length = 256 ∧
    ∀ p, p < 256 → img.pixels[p]? =
      if i * 256 + p < k then some (packColor (toUint8 (readAt data (i * 256 + p))))
      else img0.pixels[p]?

/-- The 256 pixel words of sprite `i` decoded from a stream holding `data`. -/
def decodedPixels (data : List (Fin 256)) (i : Nat) : List Nat :=
  (List.range 256).map (fun p => packColor (toUint8 (readAt data (i * 256 + p))))

/-- A sample STD file of exactly 25,600 bytes, all equal to 7. -/
def sampleBytes : List (Fin 256) := List.replicate 25600 7

/-- A file system in which every path opens and holds `sampleBytes`. -/
def sampleFs : FileSystem := fun _ => some sampleBytes

/-- A file system in which every path opens and holds an empty file. -/
def emptyFs : FileSystem := fun _ => some []

/-- A sheet like the one `main` creates, but with every pixel word set to `0x12345678`. -/
def usedSurfaces : List SDL_Surface :=
  List.replicate 100
    { format := rgba32, w := 16, h := 16, pixels := List.replicate (16 * 16) 0x12345678 }

/-- A sheet of 100 surfaces of 16x16 pixels, as `main` creates it. -/
def SheetOK (images : List SDL_Surface) : Prop :=
  images.length = 100 ∧ ∀ img ∈ images, img.w = 16 ∧ img.h = 16 ∧ img.pixels.length = 256

end SDL2Version

namespace SDL2Version

/-- The bitmap writes among a sequence of calls: sprite index, surface and path of each
`SDL_SaveBMP`, in call order. -/
def saveCalls (calls : List Call) : List (Nat × Option SDL_Surface × String) :=
  calls.filterMap (fun c =>
    match c with
    | Call.SDL_SaveBMP iindex surface file => some (iindex, surface, file)
    | _ => none)

/-- The texts of the error boxes among a sequence of calls, in call order. -/
def errorBoxes (calls : List Call) : List String :=
  calls.filterMap (fun c =>
    match c with
    | Call.SDL_ShowSimpleMessageBox MessageBoxFlag.SDL_MESSAGEBOX_ERROR _ message =>
      some message
    | _ => none)

/-- The invariant of the save loop after `k` iterations, entered with `count = count0`. -/
def SaveInv (env : Env) (argv2 : String) (images : List SDL_Surface) (count0 : Int) (k : Nat)
    (s : SaveState) : Prop :=
  saveCalls s.calls = (List.range k).map (fun i => (i, images[i]?, bmpPath argv2 i)) ∧
  s.count = count0 +
    (((List.range k).filter (fun i => decide (env.SDL_SaveBMP_result i = 0))).length : Int) ∧
  errorBoxes s.calls =
    ((List.range k).filter (fun i => decide (env.SDL_SaveBMP_result i ≠ 0))).map
      (saveErrorMsg env argv2) ∧
  ∀ c ∈ s.calls, c ≠ usageBox

/-- A 32-bit word read as an `int`. -/
def toInt32 (n : Nat) : Int :=
  if n % 2 ^ 32 < 2 ^ 31 then ((n % 2 ^ 32 : Nat) : Int) else ((n % 2 ^ 32 : Nat) : Int) - 2 ^ 32

/-- The overrun of `temp2` on a platform that places the globals in declaration order
with `count` at its natural alignment, 40 bytes from the start of `temp2`, low byte
first: `count` is made of the bytes 40..43 of the title and its terminating byte; a byte
the title does not reach keeps the 0 of the initial value. -/
def countBehindTemp2 (title : String) : Int :=
  let written := title.data.map (fun c => c.toNat % 256) ++ [0]
  toInt32 (written.getD 40 0 + 256 * written.getD 41 0 + 65536 * written.getD 42 0 +
    16777216 * written.getD 43 0)

/-- An environment in which the STD file opens, every bitmap write succeeds and the
window is closed in the first round of events. -/
def allWritesOkEnv : Env :=
  { fs := sampleFs
    SDL_Init_result := 0
    windowCreated := true
    rendererCreated := true
    SDL_SaveBMP_result := fun _ => 0
    SDL_GetError := fun _ => ""
    events := [[SDL_Event.SDL_QUIT]]
    countAfterOverrun := countBehindTemp2 }

/-- An environment in which the STD file cannot be opened, everything else works and the
escape key is pressed in the first round of events. -/
def missingFileEnv : Env :=
  { fs := fun _ => none
    SDL_Init_result := 0
    windowCreated := true
    rendererCreated := true
    SDL_SaveBMP_result := fun _ => 0
    SDL_GetError := fun _ => ""
    events := [[SDL_Event.SDL_KEYDOWN SDLK_ESCAPE]]
    countAfterOverrun := countBehindTemp2 }

/-- An environment in which only the write of sprite 42 fails. -/
def oneFailureEnv : Env :=
  { fs := sampleFs
    SDL_Init_result := 0
    windowCreated := true
    rendererCreated := true
    SDL_SaveBMP_result := fun i => if i = 42 then -1 else 0
    SDL_GetError := fun _ => "Permission denied"
    events := [[SDL_Event.SDL_QUIT]]
    countAfterOverrun := countBehindTemp2 }

end SDL2Version

namespace Main2

/-- The log entry of the `n`-th iteration of the innermost loop on a stream holding `data`. -/
def logEntry (data : List (Fin 256)) (n : Nat) : PixelStore :=
  { sprite_index := n / 256, y := n % 256 / 16, x := n % 16, read := readAt data n,
    stored := toUint8 (readAt data n) }

/-- The invariant of the loops of `Load_STD_File` after `k` iterations of the innermost
body, on a stream holding `data` and started from the bitmaps `init`. -/
def LoadInv (data : List (Fin 256)) (init : List BITMAP) (k : Nat) (s : LoadState) : Prop :=
  s.fp.data = data ∧ s.fp.pos = min k data.length ∧
  s.log = (List.range k).map (logEntry data) ∧
  s.images.length = init.length ∧
  ∀ i, i < 100 → ∃ bmp bmp0, s.images[i]? = some bmp ∧ init[i]? = some bmp0 ∧
    ∀ y, y < 16 → ∃ row row0, bmp.line[y]? = some row ∧ bmp0.line[y]? = some row0 ∧
      row.length = 16 ∧
      ∀ x, x < 16 → row[x]? =
        if i * 256 + y * 16 + x < k then some (toUint8 (readAt data (i * 256 + y * 16 + x)))
        else row0[x]?

/-- A sheet of 100 bitmaps of 16 lines of 16 pixels, as `create_bitmap(16, 16)` gives them. -/
def BitmapsOK (images : List BITMAP) : Prop :=
  images.length = 100 ∧ ∀ bmp ∈ images, bmp.line.length = 16 ∧ ∀ row ∈ bmp.line, row.length = 16

/-- The bitmap writes among the calls of the save loop: sprite index, bitmap and path of
each `save_bitmap`, in call order. -/
def saveCalls (calls : List Call) : List (Nat × Option BITMAP × String) :=
  calls.filterMap (fun c =>
    match c with
    | Call.save_bitmap iindex bmp filename => some (iindex, bmp, filename)
    | _ => none)

/-- The invariant of the save loop after `k` iterations, entered with `count = count0`. -/
def SaveInv (save_bitmap_result : Nat → Int) (argv2 : String) (images : List BITMAP)
    (count0 : Int) (k : Nat) (s : SaveState) : Prop :=
  saveCalls s.calls = (List.range k).map (fun i => (i, images[i]?, bmpPath argv2 i)) ∧
  s.count = count0 +
    (((List.range k).filter (fun i => decide (save_bitmap_result i = 0))).length : Int)

/-- A sheet of 100 bitmaps of 16x16 pixels with every pixel set to 9. -/
def usedBitmaps : List BITMAP :=
  List.replicate 100 { w := 16, h := 16, line := List.replicate 16 (List.replicate 16 9) }

end Main2

/-! ## Loop lemmas -/

theorem forLoop_zero {σ : Type} (body : Nat → σ → σ) (s : σ) : forLoop 0 body s = s := rfl

theorem forLoop_succ {σ : Type} (n : Nat) (body : Nat → σ → σ) (s : σ) :
    forLoop (n + 1) body s = body n (forLoop n body s) := by
  simp [forLoop, List.range_succ, List.foldl_append]

/-- Loop invariant rule: an invariant indexed by the iteration count is carried
through the whole loop. -/
theorem forLoop_inv {σ : Type} (P : Nat → σ → Prop) (n : Nat) (body : Nat → σ → σ) (s : σ)
    (h0 : P 0 s) (hstep : ∀ i t, i < n → P i t → P (i + 1) (body i t)) :
    P n (forLoop n body s) := by
  have key : ∀ m, m ≤ n → P m (forLoop m body s) := by
    intro m
    induction m with
    | zero => intro _; exact h0
    | succ k ih =>
      intro hk
      rw [forLoop_succ]
      exact hstep k _ (by omega) (ih (by omega))
  exact key n le_rfl

/-! ## The stream -/

theorem getElem?_of_mem_lt {α : Type} (l : List α) (i : Nat) (hi : i < l.length) :
    ∃ a, l[i]? = some a ∧ a ∈ l :=
  ⟨l.get ⟨i, hi⟩, List.getElem?_eq_getElem hi, List.get_mem l i hi⟩

theorem getc_at (data : List (Fin 256)) (k : Nat) (fp : FILE)
    (hd : fp.data = data) (hp : fp.pos = min k data.length) :
    (getc fp).1 = readAt data k ∧ (getc fp).2.data = data ∧
      (getc fp).2.pos = min (k + 1) data.length := by
  subst hd
  by_cases hk : k < fp.data.length
  · have hpos : fp.pos = k := by omega
    have hget : fp.data[fp.pos]? = some (fp.data.get ⟨k, hk⟩) := by
      rw [hpos]; exact List.getElem?_eq_getElem hk
    have hget2 : fp.data[k]? = some (fp.data.get ⟨k, hk⟩) := List.getElem?_eq_getElem hk
    simp only [getc, readAt, hget, hget2]
    refine ⟨trivial, trivial, ?_⟩
    show fp.pos + 1 = _
    omega
  · have hpos : fp.pos = fp.data.length := by omega
    have hget : fp.data[fp.pos]? = none := by
      rw [hpos]; exact List.getElem?_eq_none (le_refl _)
    have hget2 : fp.data[k]? = none := List.getElem?_eq_none (by omega)
    simp only [getc, readAt, hget, hget2]
    refine ⟨trivial, trivial, ?_⟩
    omega

namespace SDL2Version

theorem loadPixel_inv (data : List (Fin 256)) (init : List SDL_Surface)
    (i y x : Nat) (hi : i < 100) (hy : y < 16) (hx : x < 16) (s : LoadState)
    (h : LoadInv data init (i * 256 + y * 16 + x) s) :
    LoadInv data init (i * 256 + y * 16 + x + 1) (loadPixel i y x s) := by
  obtain ⟨hd, hp, hlog, hlen, himg⟩ := h
  obtain ⟨hr1, hr2, hr3⟩ := getc_at data _ s.fp hd hp
  obtain ⟨img, img0, hsi, hi0, hfmt, hw, hh, hpl, hpix⟩ := himg i hi
  have hilt : i < s.images.length := by
    by_contra hc
    have : s.images[i]? = none := List.getElem?_eq_none (by omega)
    rw [this] at hsi; exact Option.noConfusion hsi
  simp only [loadPixel, hsi, hw, hr1]
  refine ⟨hr2, hr3, ?_, ?_, ?_⟩
  · show s.log ++ _ = _
    rw [List.range_succ, List.map_append, hlog]
    simp only [List.map_cons, List.map_nil, logEntry]
    have e1 : (i * 256 + y * 16 + x) / 256 = i := by omega
    have e2 : (i * 256 + y * 16 + x) % 256 = y * 16 + x := by omega
    rw [e1, e2]
  · show (s.images.set _ _).length = _
    rw [List.length_set]; exact hlen
  · intro j hj
    obtain ⟨imgj, imgj0, hsj, hj0, hfmtj, hwj, hhj, hplj, hpixj⟩ := himg j hj
    by_cases hji : i = j
    · subst hji
      rw [hsi] at hsj; cases hsj
      rw [hi0] at hj0; cases hj0
      refine ⟨{ format := img.format, w := 16, h := img.h,
                pixels := img.pixels.set (y * 16 + x)
                  (packColor (toUint8 (readAt data (i * 256 + y * 16 + x)))) },
              img0, ?_, hi0, hfmt, rfl, hh, ?_, ?_⟩
      · show (s.images.set i _)[i]? = _
        rw [List.getElem?_set]; simp [hilt]
      · show (img.pixels.set _ _).length = 256
        rw [List.length_set]; exact hpl
      · intro p hp256
        show (img.pixels.set _ _)[p]? = _
        rw [List.getElem?_set, hpix p hp256]
        by_cases hpe : y * 16 + x = p
        · subst hpe
          have hlt : y * 16 + x < img.pixels.length := by omega
          have hc : i * 256 + (y * 16 + x) < i * 256 + y * 16 + x + 1 := by omega
          have he : i * 256 + (y * 16 + x) = i * 256 + y * 16 + x := by omega
          simp only [if_true, hlt]
          rw [if_pos hc, he]
        · have h1 : (i * 256 + p < i * 256 + y * 16 + x + 1) ↔
              (i * 256 + p < i * 256 + y * 16 + x) := by omega
          simp only [hpe, if_false, h1]
    · refine ⟨imgj, imgj0, ?_, hj0, hfmtj, hwj, hhj, hplj, ?_⟩
      · show (s.images.set i _)[j]? = _
        rw [List.getElem?_set]; simp [hji, hsj]
      · intro p hp256
        rw [hpixj p hp256]
        have h1 : (j * 256 + p < i * 256 + y * 16 + x + 1) ↔
            (j * 256 + p < i * 256 + y * 16 + x) := by omega
        simp only [h1]

theorem loadInv_init (data : List (Fin 256)) (init : List SDL_Surface) (hinit : SheetOK init) :
    LoadInv data init 0 { fp := { data := data, pos := 0 }, images := init, log := [] } := by
  refine ⟨rfl, ?_, rfl, rfl, ?_⟩
  · show 0 = min 0 data.length
    omega
  · intro i hi
    obtain ⟨img, hget, hmem⟩ := getElem?_of_mem_lt init i (by rw [hinit.1]; exact hi)
    obtain ⟨hw, _, hpl⟩ := hinit.2 img hmem
    refine ⟨img, img, hget, hget, rfl, hw, rfl, hpl, ?_⟩
    intro p _
    have : ¬ (i * 256 + p < 0) := by omega
    simp only [this, if_false]

/-- The three nested loops of `Load_STD_File` carry the invariant through all 25,600
iterations. -/
theorem loadLoops_inv (data : List (Fin 256)) (init : List SDL_Surface) (hinit : SheetOK init) :
    LoadInv data init 25600 (loadLoops { data := data, pos := 0 } init) := by
  have outer := forLoop_inv (fun i s => LoadInv data init (i * 256) s) 100
    (fun sprite_index =>
      forLoop 16 (fun y => forLoop 16 (fun x => loadPixel sprite_index y x)))
    { fp := { data := data, pos := 0 }, images := init, log := [] }
    (by simpa using loadInv_init data init hinit)
    (by
      intro i t hi ht
      have mid := forLoop_inv (fun y s => LoadInv data init (i * 256 + y * 16) s) 16
        (fun y => forLoop 16 (fun x => loadPixel i y x)) t
        (by simpa using ht)
        (by
          intro y u hy hu
          have inner := forLoop_inv (fun x s => LoadInv data init (i * 256 + y * 16 + x) s) 16
            (fun x => loadPixel i y x) u
            (by simpa using hu)
            (by
              intro x v hx hv
              have step := loadPixel_inv data init i y x hi hy hx v hv
              have e : i * 256 + y * 16 + (x + 1) = i * 256 + y * 16 + x + 1 := by omega
              show LoadInv data init (i * 256 + y * 16 + (x + 1)) _
              rw [e]; exact step)
          have e : i * 256 + (y + 1) * 16 = i * 256 + y * 16 + 16 := by omega
          show LoadInv data init (i * 256 + (y + 1) * 16) _
          rw [e]; exact inner)
      have e : (i + 1) * 256 = i * 256 + 16 * 16 := by omega
      show LoadInv data init ((i + 1) * 256) _
      rw [e]; exact mid)
  exact outer

theorem pixels_eq_decoded (data : List (Fin 256)) (i : Nat) (pixels : List Nat)
    (hlen : pixels.length = 256)
    (h : ∀ p, p < 256 → pixels[p]? = some (packColor (toUint8 (readAt data (i * 256 + p))))) :
    pixels = decodedPixels data i := by
  apply List.ext_getElem?
  intro p
  by_cases hp : p < 256
  · rw [h p hp, decodedPixels, List.getElem?_map, List.getElem?_range hp]
    rfl
  · rw [List.getElem?_eq_none (by omega), List.getElem?_eq_none]
    simp [decodedPixels]; omega

theorem Load_STD_File_of_open (fs : FileSystem) (filename : String) (fp : FILE)
    (images : List SDL_Surface) (h : fopen fs filename = some fp) :
    Load_STD_File fs filename images =
      { images := (loadLoops fp images).images
        calls := [Call.fopen filename, Call.fclose]
        log := (loadLoops fp images).log } := by
  unfold Load_STD_File
  rw [h]

theorem LoadResult_images_mk (a : List SDL_Surface) (b : List Call) (c : List PixelStore) :
    (LoadResult.mk a b c).images = a := rfl

theorem LoadResult_calls_mk (a : List SDL_Surface) (b : List Call) (c : List PixelStore) :
    (LoadResult.mk a b c).calls = b := rfl

theorem LoadResult_log_mk (a : List SDL_Surface) (b : List Call) (c : List PixelStore) :
    (LoadResult.mk a b c).log = c := rfl

theorem Load_STD_File_images_of_open (fs : FileSystem) (filename : String) (fp : FILE)
    (images : List SDL_Surface) (h : fopen fs filename = some fp) :
    (Load_STD_File fs filename images).images = (loadLoops fp images).images :=
  (congrArg LoadResult.images (Load_STD_File_of_open fs filename fp images h)).trans
    (LoadResult_images_mk _ _ _)

theorem Load_STD_File_calls_of_open (fs : FileSystem) (filename : String) (fp : FILE)
    (images : List SDL_Surface) (h : fopen fs filename = some fp) :
    (Load_STD_File fs filename images).calls = [Call.fopen filename, Call.fclose] :=
  (congrArg LoadResult.calls (Load_STD_File_of_open fs filename fp images h)).trans
    (LoadResult_calls_mk _ _ _)

theorem Load_STD_File_log_of_open (fs : FileSystem) (filename : String) (fp : FILE)
    (images : List SDL_Surface) (h : fopen fs filename = some fp) :
    (Load_STD_File fs filename images).log = (loadLoops fp images).log :=
  (congrArg LoadResult.log (Load_STD_File_of_open fs filename fp images h)).trans
    (LoadResult_log_mk _ _ _)

/-- What `Load_STD_File` does on a path that opens: it prints nothing, runs all 25,600
iterations in stream order, and leaves in every sprite the words decoded from the
stream, whatever the buffers held before. -/
theorem Load_STD_File_opened (fs : FileSystem) (filename : String) (data : List (Fin 256))
    (init : List SDL_Surface) (hopen : fs filename = some data) (hinit : SheetOK init) :
    (Load_STD_File fs filename init).calls = [Call.fopen filename, Call.fclose] ∧
    (Load_STD_File fs filename init).log = (List.range 25600).map (logEntry data) ∧
    (Load_STD_File fs filename init).images.length = 100 ∧
    ∀ i, i < 100 → ∃ img0, init[i]? = some img0 ∧
      (Load_STD_File fs filename init).images[i]? =
        some { format := img0.format, w := 16, h := 16, pixels := decodedPixels data i } := by
  have hfo : fopen fs filename = some { data := data, pos := 0 } := by
    simp [fopen, hopen]
  obtain ⟨_, _, hlog, hlen, himg⟩ := loadLoops_inv data init hinit
  rw [Load_STD_File_images_of_open fs filename _ init hfo,
    Load_STD_File_calls_of_open fs filename _ init hfo,
    Load_STD_File_log_of_open fs filename _ init hfo]
  refine ⟨rfl, ?_, ?_, ?_⟩
  · rw [hlog]
  · rw [hlen]; exact hinit.1
  intro i hi
  obtain ⟨img, img0, hsi, hi0, hfmt, hw, hh, hpl, hpix⟩ := himg i hi
  refine ⟨img0, hi0, ?_⟩
  rw [hsi]
  have hmem : img0 ∈ init := List.getElem?_mem hi0
  have hh0 := (hinit.2 img0 hmem).2.1
  have hpx : img.pixels = decodedPixels data i := by
    apply pixels_eq_decoded data i img.pixels hpl
    intro p hp
    rw [hpix p hp]
    have : i * 256 + p < 25600 := by omega
    simp only [this, if_true]
  cases img with
  | mk format w h pixels =>
    simp only at hfmt hw hh hpx
    subst hfmt hw hpx
    rw [hh, hh0]

/-! ## Colour words -/

set_option maxRecDepth 100000 in
theorem channel_R_packColor : ∀ v, v < 256 → channel (packColor v) 0xFF000000 = v := by
  decide

set_option maxRecDepth 100000 in
theorem channel_G_packColor : ∀ v, v < 256 → channel (packColor v) 0x00FF0000 = v := by
  decide

set_option maxRecDepth 100000 in
theorem channel_B_packColor : ∀ v, v < 256 → channel (packColor v) 0x0000FF00 = v := by
  decide

set_option maxRecDepth 100000 in
theorem channel_A_packColor : ∀ v, v < 256 → channel (packColor v) 0x000000FF = 255 := by
  decide

theorem SDL_GetRGBA_packColor (v : Nat) (hv : v < 256) :
    SDL_GetRGBA (packColor v) rgba32 = (v, v, v, 255) := by
  simp only [SDL_GetRGBA, rgba32, channel_R_packColor v hv, channel_G_packColor v hv,
    channel_B_packColor v hv, channel_A_packColor v hv]

theorem toUint8_byte (b : Fin 256) : toUint8 (b.val : Int) = b.val := by
  unfold toUint8
  have := b.isLt
  omega

theorem toUint8_EOF : toUint8 EOF = 255 := by decide

theorem toUint8_lt (c : Int) : toUint8 c < 256 := by
  unfold toUint8
  omega

theorem readAt_of_lt (data : List (Fin 256)) (k : Nat) (hk : k < data.length) :
    ∃ b, data[k]? = some b ∧ readAt data k = (b.val : Int) := by
  refine ⟨data.get ⟨k, hk⟩, List.getElem?_eq_getElem hk, ?_⟩
  simp only [readAt, List.getElem?_eq_getElem hk]
  rfl

theorem readAt_of_ge (data : List (Fin 256)) (k : Nat) (hk : data.length ≤ k) :
    readAt data k = EOF := by
  simp only [readAt, List.getElem?_eq_none hk]

theorem decodedPixels_length (data : List (Fin 256)) (i : Nat) :
    (decodedPixels data i).length = 256 := by
  simp [decodedPixels]

theorem decodedPixels_getElem? (data : List (Fin 256)) (i p : Nat) (hp : p < 256) :
    (decodedPixels data i)[p]? = some (packColor (toUint8 (readAt data (i * 256 + p)))) := by
  rw [decodedPixels, List.getElem?_map, List.getElem?_range hp]
  rfl

/-! ## The surfaces of `main` -/

theorem forLoop_append_const {α : Type} (a : α) (n : Nat) :
    forLoop n (fun _ l => l ++ [a]) [] = List.replicate n a := by
  induction n with
  | zero => rfl
  | succ k ih => rw [forLoop_succ, ih, List.replicate_succ']

theorem createSurfaces_eq :
    createSurfaces =
      List.replicate 100
        { format := rgba32, w := 16, h := 16, pixels := List.replicate (16 * 16) 0 } := by
  unfold createSurfaces
  rw [forLoop_append_const]
  rfl

theorem createSurfaces_ok : SheetOK createSurfaces := by
  rw [createSurfaces_eq]
  refine ⟨List.length_replicate _ _, ?_⟩
  intro img himg
  rw [List.eq_of_mem_replicate himg]
  exact ⟨rfl, rfl, List.length_replicate _ _⟩

theorem createSurfaces_format (i : Nat) (img0 : SDL_Surface)
    (h : createSurfaces[i]? = some img0) : img0.format = rgba32 := by
  have hmem : img0 ∈ createSurfaces := List.getElem?_mem h
  rw [createSurfaces_eq] at hmem
  rw [List.eq_of_mem_replicate hmem]

/-! ## Claims on the decoder -/

/-- C1: for every stream of exactly 25,600 bytes that opens, `Load_STD_File` fills exactly
100 sprites of 16x16 pixels, and the word at position `r*16 + c` of sprite `i`, read
through the masks R=0xFF000000, G=0x00FF0000, B=0x0000FF00, A=0x000000FF, is
`(v, v, v, 255)` for `v = byte[i*256 + r*16 + c]`; in particular pixel (0,0) of
sprite 0 is the first byte of the file. -/
theorem C1_load_decodes_every_byte (fs : FileSystem) (filename : String)
    (bytes : List (Fin 256)) (hopen : fs filename = some bytes)
    (hlen : bytes.length = 25600) :
    (Load_STD_File fs filename createSurfaces).images.length = 100 ∧
    (∀ i, i < 100 → ∃ img, (Load_STD_File fs filename createSurfaces).images[i]? = some img ∧
      img.w = 16 ∧ img.h = 16 ∧ img.pixels.length = 16 * 16 ∧
      img.format.Rmask = 0xFF000000 ∧ img.format.Gmask = 0x00FF0000 ∧
      img.format.Bmask = 0x0000FF00 ∧ img.format.Amask = 0x000000FF ∧
      ∀ r c, r < 16 → c < 16 → ∃ v word,
        bytes[i * 256 + r * 16 + c]? = some v ∧ img.pixels[r * 16 + c]? = some word ∧
        SDL_GetRGBA word img.format = (v.val, v.val, v.val, 255)) ∧
    (∃ img v word, (Load_STD_File fs filename createSurfaces).images[0]? = some img ∧
      bytes.head? = some v ∧ img.pixels[0 * 16 + 0]? = some word ∧
      SDL_GetRGBA word img.format = (v.val, v.val, v.val, 255)) := by
  obtain ⟨_, _, hl, himg⟩ :=
    Load_STD_File_opened fs filename bytes createSurfaces hopen createSurfaces_ok
  have main : ∀ i, i < 100 → ∃ img,
      (Load_STD_File fs filename createSurfaces).images[i]? = some img ∧
      img.w = 16 ∧ img.h = 16 ∧ img.pixels.length = 16 * 16 ∧
      img.format.Rmask = 0xFF000000 ∧ img.format.Gmask = 0x00FF0000 ∧
      img.format.Bmask = 0x0000FF00 ∧ img.format.Amask = 0x000000FF ∧
      ∀ r c, r < 16 → c < 16 → ∃ v word,
        bytes[i * 256 + r * 16 + c]? = some v ∧ img.pixels[r * 16 + c]? = some word ∧
        SDL_GetRGBA word img.format = (v.val, v.val, v.val, 255) := by
    intro i hi
    obtain ⟨img0, hi0, hres⟩ := himg i hi
    have hf := createSurfaces_format i img0 hi0
    refine ⟨_, hres, rfl, rfl, decodedPixels_length bytes i, ?_, ?_, ?_, ?_, ?_⟩
    · show img0.format.Rmask = _
      rw [hf]; rfl
    · show img0.format.Gmask = _
      rw [hf]; rfl
    · show img0.format.Bmask = _
      rw [hf]; rfl
    · show img0.format.Amask = _
      rw [hf]; rfl
    · intro r c hr hc
      have hk : i * 256 + r * 16 + c < bytes.length := by omega
      obtain ⟨b, hb, hrd⟩ := readAt_of_lt bytes _ hk
      refine ⟨b, packColor b.val, hb, ?_, ?_⟩
      · show (decodedPixels bytes i)[r * 16 + c]? = _
        rw [decodedPixels_getElem? bytes i (r * 16 + c) (by omega)]
        have e : i * 256 + (r * 16 + c) = i * 256 + r * 16 + c := by omega
        rw [e, hrd, toUint8_byte]
      · show SDL_GetRGBA _ img0.format = _
        rw [hf]
        exact SDL_GetRGBA_packColor b.val b.isLt
  refine ⟨hl, main, ?_⟩
  obtain ⟨img, hget, _, _, _, _, _, _, _, hpix⟩ := main 0 (by omega)
  obtain ⟨v, word, hv, hw, hc⟩ := hpix 0 0 (by omega) (by omega)
  refine ⟨img, v, word, hget, ?_, hw, hc⟩
  rw [List.head?_eq_getElem?]
  exact hv

/-- C1, applied to a file of 25,600 bytes all equal to 7. -/
theorem C1_load_decodes_every_byte_witness :
    sampleFs "sprites.std" = some sampleBytes ∧ sampleBytes.length = 25600 ∧
    (Load_STD_File sampleFs "sprites.std" createSurfaces).images.length = 100 :=
  ⟨rfl, List.length_replicate _ _,
    (C1_load_decodes_every_byte sampleFs "sprites.std" sampleBytes rfl
      (List.length_replicate _ _)).1⟩

theorem usedSurfaces_ok : SheetOK usedSurfaces := by
  refine ⟨List.length_replicate _ _, ?_⟩
  intro img himg
  rw [List.eq_of_mem_replicate himg]
  exact ⟨rfl, rfl, List.length_replicate _ _⟩

theorem packColor_EOF : packColor (toUint8 EOF) = 0xFFFFFFFF := by decide

theorem packColor_255 : packColor 255 = 0xFFFFFFFF := by decide

theorem log_getElem? (data : List (Fin 256)) (k : Nat) (hk : k < 25600) :
    ((List.range 25600).map (logEntry data))[k]? = some (logEntry data k) := by
  rw [List.getElem?_map, List.getElem?_range hk]
  rfl

/-- Past the end of a short stream: the read yields `EOF`, and the word stored is the one
of the byte `0xFF`. -/
theorem Load_STD_File_past_end (fs : FileSystem) (filename : String) (bytes : List (Fin 256))
    (hopen : fs filename = some bytes) (i r c : Nat) (hi : i < 100) (hr : r < 16)
    (hc : c < 16) (hk : bytes.length ≤ i * 256 + r * 16 + c) :
    (Load_STD_File fs filename createSurfaces).log[i * 256 + r * 16 + c]? =
      some { sprite_index := i, pixelPos := r * 16 + c, read := EOF, color := 0xFFFFFFFF } ∧
    ∃ img, (Load_STD_File fs filename createSurfaces).images[i]? = some img ∧
      img.pixels[r * 16 + c]? = some 0xFFFFFFFF ∧
      SDL_GetRGBA 0xFFFFFFFF img.format = (255, 255, 255, 255) := by
  obtain ⟨_, hlog, _, himg⟩ :=
    Load_STD_File_opened fs filename bytes createSurfaces hopen createSurfaces_ok
  have hrd := readAt_of_ge bytes _ hk
  constructor
  · rw [hlog, log_getElem? bytes _ (by omega)]
    have e1 : (i * 256 + r * 16 + c) / 256 = i := by omega
    have e2 : (i * 256 + r * 16 + c) % 256 = r * 16 + c := by omega
    simp only [logEntry, e1, e2, hrd, packColor_EOF]
  · obtain ⟨img0, hi0, hres⟩ := himg i hi
    have hf := createSurfaces_format i img0 hi0
    refine ⟨_, hres, ?_, ?_⟩
    · show (decodedPixels bytes i)[r * 16 + c]? = _
      rw [decodedPixels_getElem? bytes i (r * 16 + c) (by omega)]
      have e : i * 256 + (r * 16 + c) = i * 256 + r * 16 + c := by omega
      rw [e, hrd, packColor_EOF]
    · show SDL_GetRGBA _ img0.format = _
      rw [hf, ← packColor_255]
      exact SDL_GetRGBA_packColor 255 (by omega)

/-- C6, as the claim states it, fails on the empty file: the first read is past the end
and yields `EOF = -1`, yet every component of the pixel written for it is 255, a value
in `0..255`. -/
theorem C6_sentinel_is_stored_as_255 :
    emptyFs "short.std" = some [] ∧
    (Load_STD_File emptyFs "short.std" createSurfaces).log[0]? =
      some { sprite_index := 0, pixelPos := 0, read := -1, color := 0xFFFFFFFF } ∧
    ∃ img, (Load_STD_File emptyFs "short.std" createSurfaces).images[0]? = some img ∧
      img.pixels[0]? = some 0xFFFFFFFF ∧
      SDL_GetRGBA 0xFFFFFFFF img.format = (255, 255, 255, 255) ∧
      ¬ (255 < (SDL_GetRGBA 0xFFFFFFFF img.format).1) := by
  obtain ⟨hlog, img, himg, hpix, hrgba⟩ :=
    Load_STD_File_past_end emptyFs "short.std" [] rfl 0 0 0 (by omega) (by omega) (by omega)
      (Nat.zero_le _)
  refine ⟨rfl, hlog, img, himg, hpix, hrgba, ?_⟩
  rw [hrgba]
  omega

/-- C6, amended: for every stream shorter than 25,600 bytes that opens, `Load_STD_File`
signals no error (its only calls are `fopen` and `fclose`), and still performs all 25,600
reads and pixel writes, in the order of a full file; every read past the end of the
stream yields `EOF = -1`, which is converted to `Uint8` before it is used, so that the
word written for that position is `0xFFFFFFFF`, the components `(255, 255, 255, 255)`:
the same word a byte `0xFF` gives, every component a value in `0..255`. -/
theorem C6_short_file_decodes_EOF_as_white (fs : FileSystem) (filename : String)
    (bytes : List (Fin 256)) (hopen : fs filename = some bytes)
    (hshort : bytes.length < 25600) :
    (Load_STD_File fs filename createSurfaces).calls = [Call.fopen filename, Call.fclose] ∧
    (Load_STD_File fs filename createSurfaces).log.length = 25600 ∧
    (∀ k, k < 25600 → ∃ e, (Load_STD_File fs filename createSurfaces).log[k]? = some e ∧
      e.sprite_index = k / 256 ∧ e.pixelPos = k % 256 ∧ e.read = readAt bytes k) ∧
    (∀ i r c, i < 100 → r < 16 → c < 16 → bytes.length ≤ i * 256 + r * 16 + c →
      (Load_STD_File fs filename createSurfaces).log[i * 256 + r * 16 + c]? =
        some { sprite_index := i, pixelPos := r * 16 + c, read := EOF, color := 0xFFFFFFFF } ∧
      ∃ img, (Load_STD_File fs filename createSurfaces).images[i]? = some img ∧
        img.pixels[r * 16 + c]? = some 0xFFFFFFFF ∧
        SDL_GetRGBA 0xFFFFFFFF img.format = (255, 255, 255, 255)) ∧
    (∃ i r c, i < 100 ∧ r < 16 ∧ c < 16 ∧ bytes.length ≤ i * 256 + r * 16 + c) ∧
    EOF = -1 ∧ packColor 255 = 0xFFFFFFFF := by
  obtain ⟨hcalls, hlog, _, _⟩ :=
    Load_STD_File_opened fs filename bytes createSurfaces hopen createSurfaces_ok
  refine ⟨hcalls, ?_, ?_, ?_, ⟨99, 15, 15, by omega, by omega, by omega, by omega⟩, rfl,
    packColor_255⟩
  · rw [hlog, List.length_map, List.length_range]
  · intro k hk
    refine ⟨logEntry bytes k, ?_, rfl, rfl, rfl⟩
    rw [hlog, log_getElem? bytes k hk]
  · intro i r c hi hr hc hk
    exact Load_STD_File_past_end fs filename bytes hopen i r c hi hr hc hk

/-- C6 amended, applied to the empty file. -/
theorem C6_short_file_decodes_EOF_as_white_witness :
    emptyFs "short.std" = some [] ∧ ([] : List (Fin 256)).length < 25600 ∧
    (Load_STD_File emptyFs "short.std" createSurfaces).log.length = 25600 :=
  ⟨rfl, by decide,
    (C6_short_file_decodes_EOF_as_white emptyFs "short.std" [] rfl (by decide)).2.1⟩

theorem images_map_pixels (fs : FileSystem) (filename : String) (bytes : List (Fin 256))
    (init : List SDL_Surface) (hopen : fs filename = some bytes) (hinit : SheetOK init) :
    (Load_STD_File fs filename init).images.map (fun img => img.pixels) =
      (List.range 100).map (decodedPixels bytes) := by
  obtain ⟨_, _, hl, himg⟩ := Load_STD_File_opened fs filename bytes init hopen hinit
  apply List.ext_getElem?
  intro i
  by_cases hi : i < 100
  · obtain ⟨img0, _, hres⟩ := himg i hi
    rw [List.getElem?_map, hres, List.getElem?_map, List.getElem?_range hi]
    rfl
  · rw [List.getElem?_eq_none (by rw [List.length_map, hl]; omega),
      List.getElem?_eq_none (by rw [List.length_map, List.length_range]; omega)]

theorem loaded_ok (fs : FileSystem) (filename : String) (bytes : List (Fin 256))
    (init : List SDL_Surface) (hopen : fs filename = some bytes) (hinit : SheetOK init) :
    SheetOK (Load_STD_File fs filename init).images := by
  obtain ⟨_, _, hl, himg⟩ := Load_STD_File_opened fs filename bytes init hopen hinit
  refine ⟨hl, ?_⟩
  intro img hmem
  obtain ⟨i, hlt, hget⟩ := List.getElem_of_mem hmem
  have hi : i < 100 := by rw [hl] at hlt; exact hlt
  obtain ⟨img0, _, hres⟩ := himg i hi
  rw [List.getElem?_eq_getElem hlt] at hres
  have himg : img = _ := hget.symm.trans (Option.some.inj hres)
  rw [himg]
  exact ⟨rfl, rfl, decodedPixels_length bytes i⟩

/-- C7: decoding is deterministic and idempotent: on a stream that opens, whatever the 100
sprite buffers held before, `Load_STD_File` leaves in them pixel words that depend on
the input bytes alone, the same for any two prior contents, and running it twice on the
same input leaves the same buffers as running it once. -/
theorem C7_decoding_deterministic_idempotent (fs : FileSystem) (filename : String)
    (bytes : List (Fin 256)) (before₁ before₂ : List SDL_Surface)
    (hopen : fs filename = some bytes) (h₁ : SheetOK before₁) (h₂ : SheetOK before₂) :
    (Load_STD_File fs filename before₁).images.map (fun img => img.pixels) =
      (Load_STD_File fs filename before₂).images.map (fun img => img.pixels) ∧
    (Load_STD_File fs filename before₁).images.map (fun img => img.pixels) =
      (List.range 100).map (decodedPixels bytes) ∧
    (Load_STD_File fs filename (Load_STD_File fs filename before₁).images).images =
      (Load_STD_File fs filename before₁).images := by
  refine ⟨?_, images_map_pixels fs filename bytes before₁ hopen h₁, ?_⟩
  · rw [images_map_pixels fs filename bytes before₁ hopen h₁,
      images_map_pixels fs filename bytes before₂ hopen h₂]
  · have hok := loaded_ok fs filename bytes before₁ hopen h₁
    obtain ⟨_, _, hl1, himg1⟩ := Load_STD_File_opened fs filename bytes before₁ hopen h₁
    obtain ⟨_, _, hl2, himg2⟩ := Load_STD_File_opened fs filename bytes _ hopen hok
    apply List.ext_getElem?
    intro i
    by_cases hi : i < 100
    · obtain ⟨img0, _, hres1⟩ := himg1 i hi
      obtain ⟨img1, hget1, hres2⟩ := himg2 i hi
      rw [hres2, hres1]
      rw [hres1] at hget1
      rw [← Option.some.inj hget1]
    · rw [List.getElem?_eq_none (by rw [hl2]; omega),
        List.getElem?_eq_none (by rw [hl1]; omega)]

/-- C7, applied to a 25,600-byte file and to two sheets that differ in every pixel. -/
theorem C7_decoding_deterministic_idempotent_witness :
    sampleFs "sprites.std" = some sampleBytes ∧ SheetOK createSurfaces ∧
    SheetOK usedSurfaces ∧
    (Load_STD_File sampleFs "sprites.std" createSurfaces).images.map (fun img => img.pixels) =
      (Load_STD_File sampleFs "sprites.std" usedSurfaces).images.map (fun img => img.pixels) :=
  ⟨rfl, createSurfaces_ok, usedSurfaces_ok,
    (C7_decoding_deterministic_idempotent sampleFs "sprites.std" sampleBytes createSurfaces
      usedSurfaces rfl createSurfaces_ok usedSurfaces_ok).1⟩

end SDL2Version

/-! ## The save loop -/

namespace SDL2Version

theorem saveCalls_append (a b : List Call) : saveCalls (a ++ b) = saveCalls a ++ saveCalls b :=
  List.filterMap_append a b _

theorem errorBoxes_append (a b : List Call) :
    errorBoxes (a ++ b) = errorBoxes a ++ errorBoxes b :=
  List.filterMap_append a b _

theorem saveErrorBox_ne_usageBox (env : Env) (argv2 : String) (i : Nat) :
    saveErrorBox env argv2 i ≠ usageBox := by
  intro h
  simp [saveErrorBox, usageBox] at h

theorem saveBody_inv (env : Env) (argv2 : String) (images : List SDL_Surface) (count0 : Int)
    (k : Nat) (s : SaveState) (h : SaveInv env argv2 images count0 k s) :
    SaveInv env argv2 images count0 (k + 1) (saveBody env argv2 images k s) := by
  obtain ⟨hs, hc, he, hu⟩ := h
  by_cases hr : env.SDL_SaveBMP_result k = 0
  · have hbody : saveBody env argv2 images k s =
        { count := s.count + 1,
          calls := s.calls ++ [Call.SDL_SaveBMP k images[k]? (bmpPath argv2 k)] } := by
      simp [saveBody, hr]
    rw [hbody]
    refine ⟨?_, ?_, ?_, ?_⟩
    · show saveCalls (s.calls ++ _) = _
      rw [saveCalls_append, hs, List.range_succ, List.map_append]
      rfl
    · show s.count + 1 = _
      rw [hc, List.range_succ, List.filter_append, List.length_append]
      simp [hr]
      omega
    · show errorBoxes (s.calls ++ _) = _
      rw [errorBoxes_append, he, List.range_succ, List.filter_append]
      simp [hr, errorBoxes]
    · intro c hmem
      rcases List.mem_append.1 hmem with h1 | h1
      · exact hu c h1
      · rw [List.mem_singleton.1 h1]
        intro h2
        simp [usageBox] at h2
  · have hbody : saveBody env argv2 images k s =
        { count := s.count,
          calls := s.calls ++ [Call.SDL_SaveBMP k images[k]? (bmpPath argv2 k)] ++
            [saveErrorBox env argv2 k] } := by
      simp [saveBody, hr]
    rw [hbody]
    refine ⟨?_, ?_, ?_, ?_⟩
    · show saveCalls (s.calls ++ _ ++ _) = _
      rw [saveCalls_append, saveCalls_append, hs, List.range_succ, List.map_append]
      simp [saveCalls, saveErrorBox]
    · show s.count = _
      rw [hc, List.range_succ, List.filter_append]
      simp [hr]
    · show errorBoxes (s.calls ++ _ ++ _) = _
      rw [errorBoxes_append, errorBoxes_append, he, List.range_succ, List.filter_append]
      simp [hr, errorBoxes, saveErrorBox]
    · intro c hmem
      rcases List.mem_append.1 hmem with h1 | h1
      · rcases List.mem_append.1 h1 with h0 | h0
        · exact hu c h0
        · rw [List.mem_singleton.1 h0]
          intro h2
          simp [usageBox] at h2
      · rw [List.mem_singleton.1 h1]
        exact saveErrorBox_ne_usageBox env argv2 k

/-- The save loop carries its invariant through all 100 iterations. -/
theorem saveLoop_inv (env : Env) (argv2 : String) (images : List SDL_Surface) (count0 : Int) :
    SaveInv env argv2 images count0 100 (saveLoop env argv2 images count0) := by
  apply forLoop_inv (fun k s => SaveInv env argv2 images count0 k s) 100
  · refine ⟨rfl, ?_, rfl, ?_⟩
    · show count0 = count0 + _
      simp
    · intro c hc
      exact absurd hc (List.not_mem_nil c)
  · intro k s _ hs
    exact saveBody_inv env argv2 images count0 k s hs

theorem filter_length_add (p : Nat → Bool) (l : List Nat) :
    (l.filter p).length + (l.filter (fun i => !p i)).length = l.length := by
  induction l with
  | nil => rfl
  | cons a t ih =>
    by_cases h : p a = true
    · simp [List.filter_cons, h]; omega
    · simp [List.filter_cons, h]; omega

set_option maxRecDepth 100000 in
theorem toString_length_lt_100 :
    ∀ i, i < 100 → (toString i).length = if i < 10 then 1 else 2 := by
  decide

end SDL2Version

/-! ## The paths and the tally of the save loop, the formatted strings -/

namespace SDL2Version

theorem bmpPath_length (d : String) (i : Nat) :
    (bmpPath d i).length = 2 * d.length + 6 + (toString i).length := by
  simp only [bmpPath, String.length_append]
  have h1 : "/".length = 1 := rfl
  have h2 : "_".length = 1 := rfl
  have h3 : ".bmp".length = 4 := rfl
  rw [h1, h2, h3]
  omega

/-- The writes of the save loop, whatever the writer answers and whatever `count` held at
entry: exactly 100, in increasing index order, the `i`-th to `d/d_<i>.bmp` with `<i>` in
decimal without zero padding and with the surface of sprite `i`; every path fits the
256-byte buffer when `2 * len(d) + 9 ≤ 256`. -/
theorem saveLoop_writes (env : Env) (d : String) (images : List SDL_Surface) (count0 : Int) :
    saveCalls (saveLoop env d images count0).calls =
      (List.range 100).map
        (fun i => (i, images[i]?, d ++ "/" ++ d ++ "_" ++ toString i ++ ".bmp")) ∧
    (saveCalls (saveLoop env d images count0).calls).length = 100 ∧
    (2 * d.length + 9 ≤ 256 → ∀ i, i < 100 →
      fitsBuffer 256 (d ++ "/" ++ d ++ "_" ++ toString i ++ ".bmp")) ∧
    (∀ i, i < 100 → (toString i).length = if i < 10 then 1 else 2) ∧
    (saveCalls (saveLoop env d images count0).calls)[0]? =
      some (0, images[0]?, d ++ "/" ++ d ++ "_0.bmp") ∧
    (saveCalls (saveLoop env d images count0).calls)[99]? =
      some (99, images[99]?, d ++ "/" ++ d ++ "_99.bmp") := by
  obtain ⟨hs, _, _, _⟩ := saveLoop_inv env d images count0
  have hs2 : saveCalls (saveLoop env d images count0).calls =
      (List.range 100).map
        (fun i => (i, images[i]?, d ++ "/" ++ d ++ "_" ++ toString i ++ ".bmp")) := hs
  refine ⟨hs2, ?_, ?_, toString_length_lt_100, ?_, ?_⟩
  · rw [hs2, List.length_map, List.length_range]
  · intro hshort i hi
    have hl := toString_length_lt_100 i hi
    show (bmpPath d i).length + 1 ≤ 256
    rw [bmpPath_length, hl]
    split <;> omega
  · rw [hs2, List.getElem?_map, List.getElem?_range (by omega)]
    have e : d ++ "/" ++ d ++ "_" ++ toString 0 ++ ".bmp" = d ++ "/" ++ d ++ "_0.bmp" := by
      have h0 : toString 0 = "0" := rfl
      have h1 : "_" ++ ("0" ++ ".bmp") = "_0.bmp" := rfl
      rw [h0, String.append_assoc, String.append_assoc (d ++ "/" ++ d), h1]
    show some (0, images[0]?, d ++ "/" ++ d ++ "_" ++ toString 0 ++ ".bmp") = _
    rw [e]
  · rw [hs2, List.getElem?_map, List.getElem?_range (by omega)]
    have e : d ++ "/" ++ d ++ "_" ++ toString 99 ++ ".bmp" = d ++ "/" ++ d ++ "_99.bmp" := by
      have h0 : toString 99 = "99" := by decide
      have h1 : "_" ++ ("99" ++ ".bmp") = "_99.bmp" := rfl
      rw [h0, String.append_assoc, String.append_assoc (d ++ "/" ++ d), h1]
    show some (99, images[99]?, d ++ "/" ++ d ++ "_" ++ toString 99 ++ ".bmp") = _
    rw [e]

theorem filter_eq_singleton_of_iff (p : Nat → Bool) (k n : Nat) (hk : k < n)
    (h : ∀ i, i < n → (p i = true ↔ i = k)) : (List.range n).filter p = [k] := by
  have e1 : (List.range n).filter p = (List.range n).filter (fun i => i == k) := by
    apply List.filter_congr
    intro i hi
    have := h i (List.mem_range.1 hi)
    by_cases hik : i = k
    · have hp : p i = true := this.2 hik
      subst hik
      simp [hp]
    · have hp : p i = false := by
        cases hpi : p i
        · rfl
        · exact absurd (this.1 hpi) hik
      simp [hik, hp]
  rw [e1]
  have hcount : List.count k (List.range n) = 1 :=
    List.count_eq_one_of_mem (List.nodup_range n) (List.mem_range.2 hk)
  have hlen : ((List.range n).filter (fun i => i == k)).length = 1 := by
    rw [← List.countP_eq_length_filter]
    exact hcount
  match hm : (List.range n).filter (fun i => i == k), hlen with
  | [a], _ =>
    have hmem : a ∈ (List.range n).filter (fun i => i == k) := by
      rw [hm]; exact List.mem_singleton.2 rfl
    have := (List.mem_filter.1 hmem).2
    simp at this
    rw [this]

/-- The tally of the save loop, entered with `count = count0`: whatever the writer
answers, `count` ends at `count0` plus the number of indices in `0..99` whose write
succeeded, one error box is shown per failing index, successes and error boxes add up to
100, and with exactly one failing index there are 99 successes. -/
theorem saveLoop_tally (env : Env) (d : String) (images : List SDL_Surface) (count0 : Int) :
    (saveCalls (saveLoop env d images count0).calls).map (fun c => c.1) = List.range 100 ∧
    (saveLoop env d images count0).count = count0 +
      (((List.range 100).filter
        (fun i => decide (env.SDL_SaveBMP_result i = 0))).length : Int) ∧
    errorBoxes (saveLoop env d images count0).calls =
      ((List.range 100).filter (fun i => decide (env.SDL_SaveBMP_result i ≠ 0))).map
        (saveErrorMsg env d) ∧
    ((List.range 100).filter (fun i => decide (env.SDL_SaveBMP_result i = 0))).length +
      (errorBoxes (saveLoop env d images count0).calls).length = 100 ∧
    (∀ k, k < 100 → (∀ i, i < 100 → (env.SDL_SaveBMP_result i ≠ 0 ↔ i = k)) →
      (saveLoop env d images count0).count = count0 + 99 ∧
      errorBoxes (saveLoop env d images count0).calls = [saveErrorMsg env d k]) := by
  obtain ⟨hs, hc, he, _⟩ := saveLoop_inv env d images count0
  have hsum : ((List.range 100).filter
      (fun i => decide (env.SDL_SaveBMP_result i = 0))).length +
      (errorBoxes (saveLoop env d images count0).calls).length = 100 := by
    rw [he, List.length_map]
    have h := filter_length_add (fun i => decide (env.SDL_SaveBMP_result i = 0))
      (List.range 100)
    rw [List.length_range] at h
    have e : (fun i => decide (env.SDL_SaveBMP_result i ≠ 0)) =
        (fun i => !decide (env.SDL_SaveBMP_result i = 0)) := by
      funext i
      simp
    rw [e]
    exact h
  refine ⟨?_, hc, he, hsum, ?_⟩
  · rw [hs, List.map_map]
    have e : ((fun c : Nat × Option SDL_Surface × String => c.1) ∘
        fun i => (i, images[i]?, bmpPath d i)) = id := rfl
    rw [e, List.map_id]
  · intro k hk hone
    have hf : (List.range 100).filter (fun i => decide (env.SDL_SaveBMP_result i ≠ 0)) =
        [k] := by
      apply filter_eq_singleton_of_iff _ k 100 hk
      intro i hi
      simpa using hone i hi
    have herr : errorBoxes (saveLoop env d images count0).calls = [saveErrorMsg env d k] := by
      rw [he, hf]
      rfl
    refine ⟨?_, herr⟩
    rw [herr] at hsum
    simp at hsum
    rw [hc]
    omega

end SDL2Version

/-- C10: the window title formatted into the 37-byte buffer `temp2` has exactly
`36 + len(argv[1])` characters, so with its terminating byte it fits the 37 bytes if and
only if `argv[1]` is the empty string; for every non-empty file name it needs more than
37 bytes. -/
theorem C10_window_title_overflows_temp2 (argv1 : String) :
    windowTitle argv1 = "STDCNV.EXE -> [" ++ argv1 ++ "] : Press ESC to quit" ∧
    (windowTitle argv1).length = 36 + argv1.length ∧
    temp2Size = 37 ∧
    (fitsBuffer temp2Size (windowTitle argv1) ↔ argv1 = "") ∧
    (argv1 ≠ "" → 37 < (windowTitle argv1).length + 1) := by
  have hl : (windowTitle argv1).length = 36 + argv1.length := by
    simp only [windowTitle, String.length_append]
    have h1 : "STDCNV.EXE -> [".length = 15 := rfl
    have h2 : "] : Press ESC to quit".length = 21 := rfl
    rw [h1, h2]
    omega
  have hz : argv1.length = 0 ↔ argv1 = "" := by
    constructor
    · intro h
      apply String.ext
      exact List.length_eq_zero.1 h
    · intro h
      rw [h]
      rfl
  refine ⟨rfl, hl, rfl, ?_, ?_⟩
  · rw [← hz]
    show (windowTitle argv1).length + 1 ≤ 37 ↔ _
    rw [hl]
    omega
  · intro hne
    have : argv1.length ≠ 0 := fun h => hne (hz.1 h)
    rw [hl]
    omega

/-- C10, applied to the file name `a`. -/
theorem C10_window_title_overflows_temp2_witness :
    "a" ≠ "" ∧ 37 < (windowTitle "a").length + 1 :=
  ⟨by decide, (C10_window_title_overflows_temp2 "a").2.2.2.2 (by decide)⟩

/-! ## The function `main` -/

namespace SDL2Version

set_option maxRecDepth 1000000 in
theorem saveCalls_createCalls :
    saveCalls ((List.range 100).map Call.SDL_CreateRGBSurface) = [] := by
  decide

set_option maxRecDepth 1000000 in
theorem saveCalls_renderLoop : saveCalls renderLoop = [] := by
  decide

set_option maxRecDepth 1000000 in
theorem saveCalls_cleanupLoop : saveCalls cleanupLoop = [] := by
  decide

set_option maxRecDepth 1000000 in
theorem errorBoxes_createCalls :
    errorBoxes ((List.range 100).map Call.SDL_CreateRGBSurface) = [] := by
  decide

set_option maxRecDepth 1000000 in
theorem errorBoxes_renderLoop : errorBoxes renderLoop = [] := by
  decide

set_option maxRecDepth 1000000 in
theorem errorBoxes_cleanupLoop : errorBoxes cleanupLoop = [] := by
  decide

set_option maxRecDepth 1000000 in
theorem createCalls_ne_usageBox :
    ∀ c ∈ (List.range 100).map Call.SDL_CreateRGBSurface, c ≠ usageBox := by
  decide

set_option maxRecDepth 1000000 in
theorem renderLoop_ne_usageBox : ∀ c ∈ renderLoop, c ≠ usageBox := by
  decide

set_option maxRecDepth 1000000 in
theorem cleanupLoop_ne_usageBox : ∀ c ∈ cleanupLoop, c ≠ usageBox := by
  decide

theorem Load_STD_File_of_missing (fs : FileSystem) (filename : String)
    (images : List SDL_Surface) (h : fs filename = none) :
    Load_STD_File fs filename images =
      { images := images
        calls := [Call.fopen filename,
                  Call.printf ("Failed to open file: " ++ filename ++ "\n")]
        log := [] } := by
  have hfo : fopen fs filename = none := by simp [fopen, h]
  unfold Load_STD_File
  rw [hfo]

theorem Load_STD_File_calls (fs : FileSystem) (filename : String) (images : List SDL_Surface) :
    (Load_STD_File fs filename images).calls = [Call.fopen filename, Call.fclose] ∨
    (Load_STD_File fs filename images).calls =
      [Call.fopen filename, Call.printf ("Failed to open file: " ++ filename ++ "\n")] := by
  cases h : fs filename with
  | none =>
    right
    rw [Load_STD_File_of_missing fs filename images h]
  | some data =>
    left
    exact Load_STD_File_calls_of_open fs filename { data := data, pos := 0 } images
      (by simp [fopen, h])

theorem saveCalls_loaded (fs : FileSystem) (filename : String) (images : List SDL_Surface) :
    saveCalls (Load_STD_File fs filename images).calls = [] := by
  rcases Load_STD_File_calls fs filename images with h | h <;> rw [h] <;> rfl

theorem errorBoxes_loaded (fs : FileSystem) (filename : String) (images : List SDL_Surface) :
    errorBoxes (Load_STD_File fs filename images).calls = [] := by
  rcases Load_STD_File_calls fs filename images with h | h <;> rw [h] <;> rfl

theorem loaded_ne_usageBox (fs : FileSystem) (filename : String) (images : List SDL_Surface) :
    ∀ c ∈ (Load_STD_File fs filename images).calls, c ≠ usageBox := by
  intro c hc
  rcases Load_STD_File_calls fs filename images with h | h <;> rw [h] at hc <;>
    simp only [List.mem_cons, List.mem_singleton, List.not_mem_nil, or_false] at hc <;>
    rcases hc with h1 | h1 <;> rw [h1] <;> simp [usageBox]

theorem forall_mem_append_of {P : Call → Prop} {a b : List Call} (ha : ∀ c ∈ a, P c)
    (hb : ∀ c ∈ b, P c) : ∀ c ∈ a ++ b, P c :=
  List.forall_mem_append.2 ⟨ha, hb⟩

theorem mem_append_left_of {a b : List Call} {c : Call} (h : c ∈ a) : c ∈ a ++ b :=
  List.mem_append.2 (Or.inl h)

theorem mem_append_right_of {a b : List Call} {c : Call} (h : c ∈ b) : c ∈ a ++ b :=
  List.mem_append.2 (Or.inr h)

/-- The run of `main` on the path where the arguments are there and SDL, the window and
the renderer come up. -/
theorem main_running (env : Env) (argv : List String) (hargs : 3 ≤ argv.length)
    (hinit : 0 ≤ env.SDL_Init_result) (hw : env.windowCreated = true)
    (hr : env.rendererCreated = true) :
    (main env argv).images = (Load_STD_File env.fs (argv.getD 1 "") createSurfaces).images ∧
    (main env argv).count =
      (saveLoop env (argv.getD 2 "")
        (Load_STD_File env.fs (argv.getD 1 "") createSurfaces).images
        (countAfterTitle env (windowTitle (argv.getD 1 "")))).count ∧
    (main env argv).exit = (if waitForQuit env.events then some 0 else none) ∧
    saveCalls (main env argv).calls =
      saveCalls (saveLoop env (argv.getD 2 "")
        (Load_STD_File env.fs (argv.getD 1 "") createSurfaces).images
        (countAfterTitle env (windowTitle (argv.getD 1 "")))).calls ∧
    errorBoxes (main env argv).calls =
      errorBoxes (saveLoop env (argv.getD 2 "")
        (Load_STD_File env.fs (argv.getD 1 "") createSurfaces).images
        (countAfterTitle env (windowTitle (argv.getD 1 "")))).calls ∧
    (∀ c ∈ (Load_STD_File env.fs (argv.getD 1 "") createSurfaces).calls,
      c ∈ (main env argv).calls) := by
  have h1 : ¬ argv.length < 3 := by omega
  have h2 : ¬ env.SDL_Init_result < 0 := by omega
  have e1 : ∀ t, saveCalls [Call.SDL_Init, Call.SDL_CreateWindow t, Call.SDL_CreateRenderer]
      = [] := fun _ => rfl
  have e2 : saveCalls [Call.SDL_SetRenderDrawColor, Call.SDL_RenderClear] = [] := rfl
  have e3 : saveCalls [Call.SDL_RenderPresent] = [] := rfl
  have e4 : ∀ n d, saveCalls [successBox n d] = [] := fun _ _ => rfl
  have e5 : saveCalls [Call.SDL_DestroyRenderer, Call.SDL_DestroyWindow, Call.SDL_Quit]
      = [] := rfl
  have f1 : ∀ t, errorBoxes [Call.SDL_Init, Call.SDL_CreateWindow t, Call.SDL_CreateRenderer]
      = [] := fun _ => rfl
  have f2 : errorBoxes [Call.SDL_SetRenderDrawColor, Call.SDL_RenderClear] = [] := rfl
  have f3 : errorBoxes [Call.SDL_RenderPresent] = [] := rfl
  have f4 : ∀ n d, errorBoxes [successBox n d] = [] := fun _ _ => rfl
  have f5 : errorBoxes [Call.SDL_DestroyRenderer, Call.SDL_DestroyWindow, Call.SDL_Quit]
      = [] := rfl
  unfold main
  simp only [h1, h2, hw, hr, if_false, Bool.true_eq_false]
  cases waitForQuit env.events
  · simp only [Bool.false_eq_true, if_false]
    refine ⟨trivial, trivial, trivial, ?_, ?_, ?_⟩
    · simp only [saveCalls_append, saveCalls_createCalls, saveCalls_renderLoop,
        saveCalls_loaded, e1, e2, e3, e4, List.nil_append, List.append_nil]
    · simp only [errorBoxes_append, errorBoxes_createCalls, errorBoxes_renderLoop,
        errorBoxes_loaded, f1, f2, f3, f4, List.nil_append, List.append_nil]
    · intro c hc
      exact mem_append_left_of (mem_append_left_of (mem_append_left_of
        (mem_append_left_of (mem_append_left_of (mem_append_right_of hc)))))
  · simp only [if_true]
    refine ⟨trivial, trivial, trivial, ?_, ?_, ?_⟩
    · simp only [saveCalls_append, saveCalls_createCalls, saveCalls_renderLoop,
        saveCalls_loaded, saveCalls_cleanupLoop, e1, e2, e3, e4, e5, List.nil_append,
        List.append_nil]
    · simp only [errorBoxes_append, errorBoxes_createCalls, errorBoxes_renderLoop,
        errorBoxes_loaded, errorBoxes_cleanupLoop, f1, f2, f3, f4, f5, List.nil_append,
        List.append_nil]
    · intro c hc
      exact mem_append_left_of (mem_append_left_of (mem_append_left_of (mem_append_left_of
        (mem_append_left_of (mem_append_left_of (mem_append_left_of
          (mem_append_right_of hc)))))))

theorem main_calls_ne_usageBox (env : Env) (argv : List String) (hargs : 3 ≤ argv.length) :
    ∀ c ∈ (main env argv).calls, c ≠ usageBox := by
  have h1 : ¬ argv.length < 3 := by omega
  have hsave := (saveLoop_inv env (argv.getD 2 "")
    (Load_STD_File env.fs (argv.getD 1 "") createSurfaces).images
    (countAfterTitle env (windowTitle (argv.getD 1 "")))).2.2.2
  have hload := loaded_ne_usageBox env.fs (argv.getD 1 "") createSurfaces
  have hA : ∀ t, ∀ c ∈ [Call.SDL_Init, Call.SDL_CreateWindow t, Call.SDL_CreateRenderer],
      c ≠ usageBox := by
    intro t c hc
    simp only [List.mem_cons, List.mem_singleton, List.not_mem_nil, or_false] at hc
    rcases hc with h | h | h <;> rw [h] <;> simp [usageBox]
  have hB : ∀ c ∈ [Call.SDL_SetRenderDrawColor, Call.SDL_RenderClear], c ≠ usageBox := by
    intro c hc
    simp only [List.mem_cons, List.mem_singleton, List.not_mem_nil, or_false] at hc
    rcases hc with h | h <;> rw [h] <;> simp [usageBox]
  have hC : ∀ c ∈ [Call.SDL_RenderPresent], c ≠ usageBox := by
    intro c hc
    rw [List.mem_singleton.1 hc]
    simp [usageBox]
  have hD : ∀ n d, ∀ c ∈ [successBox n d], c ≠ usageBox := by
    intro n d c hc
    rw [List.mem_singleton.1 hc]
    simp [usageBox, successBox]
  have hE : ∀ c ∈ [Call.SDL_DestroyRenderer, Call.SDL_DestroyWindow, Call.SDL_Quit],
      c ≠ usageBox := by
    intro c hc
    simp only [List.mem_cons, List.mem_singleton, List.not_mem_nil, or_false] at hc
    rcases hc with h | h | h <;> rw [h] <;> simp [usageBox]
  have hbody := forall_mem_append_of (forall_mem_append_of (forall_mem_append_of
    (forall_mem_append_of (forall_mem_append_of (forall_mem_append_of (forall_mem_append_of
      (hA (windowTitle (argv.getD 1 ""))) createCalls_ne_usageBox) hload) hB)
        renderLoop_ne_usageBox) hC) hsave)
    (hD (saveLoop env (argv.getD 2 "")
      (Load_STD_File env.fs (argv.getD 1 "") createSurfaces).images
      (countAfterTitle env (windowTitle (argv.getD 1 "")))).count (argv.getD 2 ""))
  unfold main
  simp only [h1, if_false]
  split
  · intro c hc
    simp only [List.mem_cons, List.mem_singleton, List.not_mem_nil, or_false] at hc
    rcases hc with h | h <;> rw [h] <;> simp [usageBox]
  · split
    · intro c hc
      simp only [List.mem_cons, List.mem_singleton, List.not_mem_nil, or_false] at hc
      rcases hc with h | h | h | h <;> rw [h] <;> simp [usageBox]
    · split
      · intro c hc
        simp only [List.mem_cons, List.mem_singleton, List.not_mem_nil, or_false] at hc
        rcases hc with h | h | h | h | h | h <;> rw [h] <;> simp [usageBox]
      · split
        · exact forall_mem_append_of (forall_mem_append_of hbody cleanupLoop_ne_usageBox) hE
        · exact hbody

end SDL2Version

/-! ## The decoder and the save loop of `main2.cpp` -/

namespace Main2

theorem main2_loadPixel_inv (data : List (Fin 256)) (init : List BITMAP)
    (i y x : Nat) (hi : i < 100) (hy : y < 16) (hx : x < 16) (s : LoadState)
    (h : LoadInv data init (i * 256 + y * 16 + x) s) :
    LoadInv data init (i * 256 + y * 16 + x + 1) (loadPixel i y x s) := by
  obtain ⟨hd, hp, hlog, hlen, himg⟩ := h
  obtain ⟨hr1, hr2, hr3⟩ := getc_at data _ s.fp hd hp
  obtain ⟨bmp, bmp0, hsi, hi0, hrows⟩ := himg i hi
  obtain ⟨row, row0, hrow, hrow0, hrl, hpix⟩ := hrows y hy
  have hilt : i < s.images.length := by
    by_contra hc
    have : s.images[i]? = none := List.getElem?_eq_none (by omega)
    rw [this] at hsi; exact Option.noConfusion hsi
  have hylt : y < bmp.line.length := by
    by_contra hc
    have : bmp.line[y]? = none := List.getElem?_eq_none (by omega)
    rw [this] at hrow; exact Option.noConfusion hrow
  simp only [loadPixel, hsi, hrow, hr1]
  refine ⟨hr2, hr3, ?_, ?_, ?_⟩
  · show s.log ++ _ = _
    rw [List.range_succ, List.map_append, hlog]
    simp only [List.map_cons, List.map_nil, logEntry]
    have e1 : (i * 256 + y * 16 + x) / 256 = i := by omega
    have e2 : (i * 256 + y * 16 + x) % 256 / 16 = y := by omega
    have e3 : (i * 256 + y * 16 + x) % 16 = x := by omega
    rw [e1, e2, e3]
  · show (s.images.set _ _).length = _
    rw [List.length_set]; exact hlen
  · intro j hj
    obtain ⟨bmpj, bmpj0, hsj, hj0, hrowsj⟩ := himg j hj
    by_cases hji : i = j
    · subst hji
      rw [hsi] at hsj; cases hsj
      rw [hi0] at hj0; cases hj0
      refine ⟨{ w := bmp.w, h := bmp.h,
                line := bmp.line.set y
                  (row.set x (toUint8 (readAt data (i * 256 + y * 16 + x)))) },
              bmp0, ?_, hi0, ?_⟩
      · show (s.images.set i _)[i]? = _
        rw [List.getElem?_set]; simp [hilt]
      · intro y2 hy2
        obtain ⟨r2, r20, hr2row, hr20, hr2l, hpix2⟩ := hrows y2 hy2
        by_cases hyy : y = y2
        · subst hyy
          rw [hrow] at hr2row; cases hr2row
          rw [hrow0] at hr20; cases hr20
          refine ⟨row.set x (toUint8 (readAt data (i * 256 + y * 16 + x))), row0, ?_,
            hrow0, ?_, ?_⟩
          · show (bmp.line.set y _)[y]? = _
            rw [List.getElem?_set]; simp [hylt]
          · rw [List.length_set]; exact hrl
          · intro x2 hx2
            rw [List.getElem?_set, hpix x2 hx2]
            by_cases hxx : x = x2
            · subst hxx
              have hlt : x < row.length := by omega
              have hc : i * 256 + y * 16 + x < i * 256 + y * 16 + x + 1 := by omega
              simp only [if_true, hlt]
              rw [if_pos hc]
            · have h1 : (i * 256 + y * 16 + x2 < i * 256 + y * 16 + x + 1) ↔
                  (i * 256 + y * 16 + x2 < i * 256 + y * 16 + x) := by omega
              simp only [hxx, if_false, h1]
        · refine ⟨r2, r20, ?_, hr20, hr2l, ?_⟩
          · show (bmp.line.set y _)[y2]? = _
            rw [List.getElem?_set]; simp [hyy, hr2row]
          · intro x2 hx2
            rw [hpix2 x2 hx2]
            have h1 : (i * 256 + y2 * 16 + x2 < i * 256 + y * 16 + x + 1) ↔
                (i * 256 + y2 * 16 + x2 < i * 256 + y * 16 + x) := by omega
            simp only [h1]
    · refine ⟨bmpj, bmpj0, ?_, hj0, ?_⟩
      · show (s.images.set i _)[j]? = _
        rw [List.getElem?_set]; simp [hji, hsj]
      · intro y2 hy2
        obtain ⟨r2, r20, hr2row, hr20, hr2l, hpix2⟩ := hrowsj y2 hy2
        refine ⟨r2, r20, hr2row, hr20, hr2l, ?_⟩
        intro x2 hx2
        rw [hpix2 x2 hx2]
        have h1 : (j * 256 + y2 * 16 + x2 < i * 256 + y * 16 + x + 1) ↔
            (j * 256 + y2 * 16 + x2 < i * 256 + y * 16 + x) := by omega
        simp only [h1]

theorem main2_loadInv_init (data : List (Fin 256)) (init : List BITMAP) (hinit : BitmapsOK init) :
    LoadInv data init 0 { fp := { data := data, pos := 0 }, images := init, log := [] } := by
  refine ⟨rfl, ?_, rfl, rfl, ?_⟩
  · show 0 = min 0 data.length
    omega
  · intro i hi
    obtain ⟨bmp, hget, hmem⟩ := getElem?_of_mem_lt init i (by rw [hinit.1]; exact hi)
    obtain ⟨hll, hrows⟩ := hinit.2 bmp hmem
    refine ⟨bmp, bmp, hget, hget, ?_⟩
    intro y hy
    obtain ⟨row, hrow, hrmem⟩ := getElem?_of_mem_lt bmp.line y (by rw [hll]; exact hy)
    refine ⟨row, row, hrow, hrow, hrows row hrmem, ?_⟩
    intro x _
    have : ¬ (i * 256 + y * 16 + x < 0) := by omega
    simp only [this, if_false]

/-- The three nested loops of `Load_STD_File` carry the invariant through all 25,600
iterations. -/
theorem main2_loadLoops_inv (data : List (Fin 256)) (init : List BITMAP) (hinit : BitmapsOK init) :
    LoadInv data init 25600 (loadLoops { data := data, pos := 0 } init) := by
  have outer := forLoop_inv (fun i s => LoadInv data init (i * 256) s) 100
    (fun sprite_index =>
      forLoop 16 (fun y => forLoop 16 (fun x => loadPixel sprite_index y x)))
    { fp := { data := data, pos := 0 }, images := init, log := [] }
    (by simpa using main2_loadInv_init data init hinit)
    (by
      intro i t hi ht
      have mid := forLoop_inv (fun y s => LoadInv data init (i * 256 + y * 16) s) 16
        (fun y => forLoop 16 (fun x => loadPixel i y x)) t
        (by simpa using ht)
        (by
          intro y u hy hu
          have inner := forLoop_inv (fun x s => LoadInv data init (i * 256 + y * 16 + x) s) 16
            (fun x => loadPixel i y x) u
            (by simpa using hu)
            (by
              intro x v hx hv
              have step := main2_loadPixel_inv data init i y x hi hy hx v hv
              have e : i * 256 + y * 16 + (x + 1) = i * 256 + y * 16 + x + 1 := by omega
              show LoadInv data init (i * 256 + y * 16 + (x + 1)) _
              rw [e]; exact step)
          have e : i * 256 + (y + 1) * 16 = i * 256 + y * 16 + 16 := by omega
          show LoadInv data init (i * 256 + (y + 1) * 16) _
          rw [e]; exact inner)
      have e : (i + 1) * 256 = i * 256 + 16 * 16 := by omega
      show LoadInv data init ((i + 1) * 256) _
      rw [e]; exact mid)
  exact outer

theorem main2_Load_STD_File_of_open (fs : FileSystem) (filename : String) (fp : FILE)
    (images : List BITMAP) (h : fopen fs filename = some fp) :
    Load_STD_File fs filename images =
      some { images := (loadLoops fp images).images, log := (loadLoops fp images).log } := by
  unfold Load_STD_File
  rw [h]

/-- What `Load_STD_File` of `main2.cpp` does on a path that opens: all 25,600 iterations in
stream order, and in `line[y][x]` of sprite `i` the read at offset `i*256 + y*16 + x`,
converted to `unsigned char`. -/
theorem main2_Load_STD_File_opened (fs : FileSystem) (filename : String) (data : List (Fin 256))
    (init : List BITMAP) (hopen : fs filename = some data) (hinit : BitmapsOK init) :
    ∃ images log, Load_STD_File fs filename init = some { images := images, log := log } ∧
      log = (List.range 25600).map (logEntry data) ∧ images.length = 100 ∧
      ∀ i y x, i < 100 → y < 16 → x < 16 → ∃ bmp row, images[i]? = some bmp ∧
        bmp.line[y]? = some row ∧
        row[x]? = some (toUint8 (readAt data (i * 256 + y * 16 + x))) := by
  have hfo : fopen fs filename = some { data := data, pos := 0 } := by
    simp [fopen, hopen]
  obtain ⟨_, _, hlog, hlen, himg⟩ := main2_loadLoops_inv data init hinit
  refine ⟨_, _, main2_Load_STD_File_of_open fs filename _ init hfo, hlog, ?_, ?_⟩
  · rw [hlen]; exact hinit.1
  · intro i y x hi hy hx
    obtain ⟨bmp, bmp0, hsi, _, hrows⟩ := himg i hi
    obtain ⟨row, row0, hrow, _, _, hpix⟩ := hrows y hy
    refine ⟨bmp, row, hsi, hrow, ?_⟩
    rw [hpix x hx]
    have : i * 256 + y * 16 + x < 25600 := by omega
    simp only [this, if_true]

theorem main2_saveBody_inv (save_bitmap_result : Nat → Int) (argv2 : String)
    (images : List BITMAP) (count0 : Int) (k : Nat) (s : SaveState)
    (h : SaveInv save_bitmap_result argv2 images count0 k s) :
    SaveInv save_bitmap_result argv2 images count0 (k + 1)
      (saveBody save_bitmap_result argv2 images k s) := by
  obtain ⟨hs, hc⟩ := h
  have happ : ∀ a b : List Call, saveCalls (a ++ b) = saveCalls a ++ saveCalls b :=
    fun a b => List.filterMap_append a b _
  by_cases hr : save_bitmap_result k = 0
  · have hbody : saveBody save_bitmap_result argv2 images k s =
        { count := s.count + 1,
          calls := s.calls ++ [Call.save_bitmap k images[k]? (bmpPath argv2 k)] } := by
      simp [saveBody, hr]
    rw [hbody]
    refine ⟨?_, ?_⟩
    · show saveCalls (s.calls ++ _) = _
      rw [happ, hs, List.range_succ, List.map_append]
      rfl
    · show s.count + 1 = _
      rw [hc, List.range_succ, List.filter_append, List.length_append]
      simp [hr]
      omega
  · have hbody : saveBody save_bitmap_result argv2 images k s =
        { count := s.count,
          calls := s.calls ++ [Call.save_bitmap k images[k]? (bmpPath argv2 k)] ++
            [Call.allegro_message
              ("error saving bitmap #" ++ toString k ++ " to " ++ argv2 ++ "/" ++ argv2 ++
                "_" ++ toString k ++ ".bmp")] } := by
      simp [saveBody, hr]
    rw [hbody]
    refine ⟨?_, ?_⟩
    · show saveCalls (s.calls ++ _ ++ _) = _
      rw [happ, happ, hs, List.range_succ, List.map_append]
      simp [saveCalls]
    · show s.count = _
      rw [hc, List.range_succ, List.filter_append]
      simp [hr]

/-- The save loop of `main2.cpp` carries its invariant through all 100 iterations. -/
theorem main2_saveLoop_inv (save_bitmap_result : Nat → Int) (argv2 : String)
    (images : List BITMAP) (count0 : Int) :
    SaveInv save_bitmap_result argv2 images count0 100
      (saveLoop save_bitmap_result argv2 images count0) := by
  apply forLoop_inv (fun k s => SaveInv save_bitmap_result argv2 images count0 k s) 100
  · refine ⟨rfl, ?_⟩
    show count0 = count0 + _
    simp
  · intro k s _ hs
    exact main2_saveBody_inv save_bitmap_result argv2 images count0 k s hs

/-- The writes of the save loop of `main2.cpp`: the same indices and paths as in
`SDL2Version.cpp`, each path fitting the 20-byte buffer when `2 * len(d) + 9 ≤ 20`. -/
theorem main2_saveLoop_writes (save_bitmap_result : Nat → Int) (d : String)
    (images : List BITMAP) (count0 : Int) :
    (saveCalls (saveLoop save_bitmap_result d images count0).calls).map
        (fun c => (c.1, c.2.2)) =
      (List.range 100).map (fun i => (i, d ++ "/" ++ d ++ "_" ++ toString i ++ ".bmp")) ∧
    (2 * d.length + 9 ≤ tempSize → ∀ i, i < 100 →
      fitsBuffer tempSize (d ++ "/" ++ d ++ "_" ++ toString i ++ ".bmp")) := by
  constructor
  · rw [(main2_saveLoop_inv save_bitmap_result d images count0).1, List.map_map]
    rfl
  · intro hshort i hi
    have hl := SDL2Version.toString_length_lt_100 i hi
    have hs : 2 * d.length + 9 ≤ 20 := hshort
    show (bmpPath d i).length + 1 ≤ 20
    rw [SDL2Version.bmpPath_length, hl]
    split <;> omega

theorem main2_saveLoop_count_of_all_ok (save_bitmap_result : Nat → Int) (argv2 : String)
    (images : List BITMAP) (count0 : Int)
    (hall : ∀ i, i < 100 → save_bitmap_result i = 0) :
    (saveLoop save_bitmap_result argv2 images count0).count = count0 + 100 := by
  rw [(main2_saveLoop_inv save_bitmap_result argv2 images count0).2]
  have hf : (List.range 100).filter (fun i => decide (save_bitmap_result i = 0)) =
      List.range 100 := by
    apply List.filter_eq_self.2
    intro i hi
    simp [hall i (List.mem_range.1 hi)]
  rw [hf, List.length_range]
  rfl

theorem usedBitmaps_ok : BitmapsOK usedBitmaps := by
  refine ⟨List.length_replicate _ _, ?_⟩
  intro bmp hbmp
  rw [List.eq_of_mem_replicate hbmp]
  refine ⟨List.length_replicate _ _, ?_⟩
  intro row hrow
  rw [List.eq_of_mem_replicate hrow]
  exact List.length_replicate _ _

end Main2

/-! ## Claims on `main` -/

namespace SDL2Version

theorem saveLoop_count_of_all_ok (env : Env) (d : String) (images : List SDL_Surface)
    (count0 : Int) (hall : ∀ i, i < 100 → env.SDL_SaveBMP_result i = 0) :
    (saveLoop env d images count0).count = count0 + 100 := by
  rw [(saveLoop_inv env d images count0).2.1]
  have hf : (List.range 100).filter (fun i => decide (env.SDL_SaveBMP_result i = 0)) =
      List.range 100 := by
    apply List.filter_eq_self.2
    intro i hi
    simp [hall i (List.mem_range.1 hi)]
  rw [hf, List.length_range]
  rfl

/-- The run `STDCNV.EXE a d` of `main`, when SDL, the window and the renderer come up. -/
theorem main_run (env : Env) (prog a d : String) (hinit : 0 ≤ env.SDL_Init_result)
    (hw : env.windowCreated = true) (hr : env.rendererCreated = true) :
    (main env [prog, a, d]).images = (Load_STD_File env.fs a createSurfaces).images ∧
    (main env [prog, a, d]).count =
      (saveLoop env d (Load_STD_File env.fs a createSurfaces).images
        (countAfterTitle env (windowTitle a))).count ∧
    (main env [prog, a, d]).exit = (if waitForQuit env.events then some 0 else none) ∧
    saveCalls (main env [prog, a, d]).calls =
      saveCalls (saveLoop env d (Load_STD_File env.fs a createSurfaces).images
        (countAfterTitle env (windowTitle a))).calls ∧
    errorBoxes (main env [prog, a, d]).calls =
      errorBoxes (saveLoop env d (Load_STD_File env.fs a createSurfaces).images
        (countAfterTitle env (windowTitle a))).calls ∧
    (∀ c ∈ (Load_STD_File env.fs a createSurfaces).calls, c ∈ (main env [prog, a, d]).calls) := by
  have h := main_running env [prog, a, d] (by simp) hinit hw hr
  have e1 : [prog, a, d].getD 1 "" = a := rfl
  have e2 : [prog, a, d].getD 2 "" = d := rfl
  rw [e1, e2] at h
  exact h

/-- What `main` does when SDL, the window and the renderer come up but the STD path does
not open. -/
theorem main_of_missing (env : Env) (prog a d : String) (hinit : 0 ≤ env.SDL_Init_result)
    (hw : env.windowCreated = true) (hr : env.rendererCreated = true)
    (hmissing : env.fs a = none) :
    Call.printf ("Failed to open file: " ++ a ++ "\n") ∈ (main env [prog, a, d]).calls ∧
    (main env [prog, a, d]).images = createSurfaces ∧
    saveCalls (main env [prog, a, d]).calls =
      (List.range 100).map (fun i => (i, createSurfaces[i]?, bmpPath d i)) ∧
    (main env [prog, a, d]).count =
      (saveLoop env d createSurfaces (countAfterTitle env (windowTitle a))).count ∧
    (main env [prog, a, d]).exit = (if waitForQuit env.events then some 0 else none) := by
  obtain ⟨himg, hcount, hexit, hsave, _, hmem⟩ := main_run env prog a d hinit hw hr
  have hl := Load_STD_File_of_missing env.fs a createSurfaces hmissing
  have hli : (Load_STD_File env.fs a createSurfaces).images = createSurfaces :=
    (congrArg LoadResult.images hl).trans (LoadResult_images_mk _ _ _)
  have hlc : (Load_STD_File env.fs a createSurfaces).calls =
      [Call.fopen a, Call.printf ("Failed to open file: " ++ a ++ "\n")] :=
    (congrArg LoadResult.calls hl).trans (LoadResult_calls_mk _ _ _)
  rw [hli] at himg hcount hsave
  refine ⟨?_, himg, ?_, hcount, hexit⟩
  · apply hmem
    rw [hlc]
    exact List.mem_cons_of_mem _ (List.mem_singleton.2 rfl)
  · rw [hsave]
    exact (saveLoop_inv env d createSurfaces _).1

theorem countAfterTitle_of_fits (env : Env) (title : String)
    (h : fitsBuffer temp2Size title) : countAfterTitle env title = 0 := by
  unfold countAfterTitle
  rw [if_pos h]

theorem countAfterTitle_of_overrun (env : Env) (title : String)
    (h : ¬ fitsBuffer temp2Size title) :
    countAfterTitle env title = env.countAfterOverrun title := by
  unfold countAfterTitle
  rw [if_neg h]

/-- C2 on the run `STDCNV.EXE "" out`: the empty path does not open (and its window title
still fits `temp2`); `Load_STD_File` reports the failure and leaves the 100 surfaces as
they were created, and `main`, instead of giving up as it does on every other setup
failure, attempts all 100 bitmap writes, counts 100 successes and returns 0. -/
theorem C2_missing_file_run_saves_and_returns_0 :
    missingFileEnv.fs "" = none ∧
    fitsBuffer temp2Size (windowTitle "") ∧
    Call.printf ("Failed to open file: " ++ "" ++ "\n") ∈
      (main missingFileEnv ["STDCNV.EXE", "", "out"]).calls ∧
    (main missingFileEnv ["STDCNV.EXE", "", "out"]).images = createSurfaces ∧
    (saveCalls (main missingFileEnv ["STDCNV.EXE", "", "out"]).calls).length = 100 ∧
    (main missingFileEnv ["STDCNV.EXE", "", "out"]).count = 100 ∧
    (main missingFileEnv ["STDCNV.EXE", "", "out"]).exit = some 0 := by
  obtain ⟨hp, himg, hsave, hcount, hexit⟩ :=
    main_of_missing missingFileEnv "STDCNV.EXE" "" "out" (by decide) rfl rfl rfl
  have hfit : fitsBuffer temp2Size (windowTitle "") := by decide
  refine ⟨rfl, hfit, hp, himg, ?_, ?_, ?_⟩
  · rw [hsave, List.length_map, List.length_range]
  · rw [hcount, countAfterTitle_of_fits missingFileEnv _ hfit,
      saveLoop_count_of_all_ok missingFileEnv _ createSurfaces 0 (fun _ _ => rfl)]
    rfl
  · rw [hexit]
    rfl

set_option maxRecDepth 100000 in
theorem title_overrun_sprites :
    ¬ fitsBuffer temp2Size (windowTitle "sprites.std") ∧
    countBehindTemp2 (windowTitle "sprites.std") = 1897951092 := by
  decide

/-- C3 on the run `STDCNV.EXE sprites.std out` in which the file opens and every bitmap
write succeeds: the save loop issues its 100 writes, to `out/out_0.bmp` up to
`out/out_99.bmp`, each with the surface of its sprite, but the final count is 1897951192
and not 100. The title written into `temp2` before the loop needs 48 bytes, and where
`count` lies right behind `temp2` its bytes 40..43 have become those of the title; the
save loop of `main2.cpp`, entered with that count, ends at the same value. -/
theorem C3_count_not_100_after_title_overrun :
    ¬ fitsBuffer temp2Size (windowTitle "sprites.std") ∧
    allWritesOkEnv.SDL_SaveBMP_result = (fun _ => 0) ∧
    saveCalls (main allWritesOkEnv ["STDCNV.EXE", "sprites.std", "out"]).calls =
      (List.range 100).map
        (fun i => (i, (Load_STD_File sampleFs "sprites.std" createSurfaces).images[i]?,
          "out" ++ "/" ++ "out" ++ "_" ++ toString i ++ ".bmp")) ∧
    (main allWritesOkEnv ["STDCNV.EXE", "sprites.std", "out"]).count = 1897951192 ∧
    (main allWritesOkEnv ["STDCNV.EXE", "sprites.std", "out"]).count ≠ 100 ∧
    (Main2.saveCalls (Main2.saveLoop (fun _ => 0) "out" Main2.usedBitmaps
      (countBehindTemp2 (windowTitle "sprites.std"))).calls).map (fun c => (c.1, c.2.2)) =
      (List.range 100).map (fun i => (i, "out" ++ "/" ++ "out" ++ "_" ++ toString i ++ ".bmp")) ∧
    (Main2.saveLoop (fun _ => 0) "out" Main2.usedBitmaps
      (countBehindTemp2 (windowTitle "sprites.std"))).count = 1897951192 := by
  obtain ⟨_, hcount, _, hsave, _, _⟩ :=
    main_run allWritesOkEnv "STDCNV.EXE" "sprites.std" "out" (by decide) rfl rfl
  have hc0 : countAfterTitle allWritesOkEnv (windowTitle "sprites.std") = 1897951092 :=
    (countAfterTitle_of_overrun allWritesOkEnv _ title_overrun_sprites.1).trans
      title_overrun_sprites.2
  have hc : (main allWritesOkEnv ["STDCNV.EXE", "sprites.std", "out"]).count = 1897951192 := by
    rw [hcount, hc0, saveLoop_count_of_all_ok allWritesOkEnv _ _ _ (fun _ _ => rfl)]
    rfl
  refine ⟨title_overrun_sprites.1, rfl, ?_, hc, ?_,
    (Main2.main2_saveLoop_writes _ "out" _ _).1, ?_⟩
  · rw [hsave]
    exact (saveLoop_writes allWritesOkEnv "out" _ _).1
  · rw [hc]
    decide
  · rw [Main2.main2_saveLoop_count_of_all_ok _ _ _ _ (fun _ _ => rfl),
      title_overrun_sprites.2]
    rfl

/-- C4 on the run `STDCNV.EXE sprites.std out` in which only the write of sprite 42
fails: all 100 indices are attempted, in order, and exactly one error box is shown, the
one for sprite 42, but the final count is 1897951191 and not 99, so that count and
reported failures do not add up to 100. The cause is the one of C3: the title written
into `temp2` before the loop has overrun `count`. -/
theorem C4_count_not_99_after_title_overrun :
    ¬ fitsBuffer temp2Size (windowTitle "sprites.std") ∧
    (oneFailureEnv.SDL_SaveBMP_result = fun i => if i = 42 then -1 else 0) ∧
    (saveCalls (main oneFailureEnv ["STDCNV.EXE", "sprites.std", "out"]).calls).map
      (fun c => c.1) = List.range 100 ∧
    errorBoxes (main oneFailureEnv ["STDCNV.EXE", "sprites.std", "out"]).calls =
      [saveErrorMsg oneFailureEnv "out" 42] ∧
    (main oneFailureEnv ["STDCNV.EXE", "sprites.std", "out"]).count = 1897951191 ∧
    (main oneFailureEnv ["STDCNV.EXE", "sprites.std", "out"]).count ≠ 99 ∧
    (main oneFailureEnv ["STDCNV.EXE", "sprites.std", "out"]).count +
      ((errorBoxes (main oneFailureEnv ["STDCNV.EXE", "sprites.std", "out"]).calls).length :
        Int) ≠ 100 := by
  obtain ⟨_, hcount, _, hsave, herr, _⟩ :=
    main_run oneFailureEnv "STDCNV.EXE" "sprites.std" "out" (by decide) rfl rfl
  have hc0 : countAfterTitle oneFailureEnv (windowTitle "sprites.std") = 1897951092 :=
    (countAfterTitle_of_overrun oneFailureEnv _ title_overrun_sprites.1).trans
      title_overrun_sprites.2
  obtain ⟨hidx, _, _, _, hone⟩ :=
    saveLoop_tally oneFailureEnv "out"
      (Load_STD_File oneFailureEnv.fs "sprites.std" createSurfaces).images
      (countAfterTitle oneFailureEnv (windowTitle "sprites.std"))
  obtain ⟨h99, hbox⟩ := hone 42 (by decide) (by intro i _; simp [oneFailureEnv])
  have hc : (main oneFailureEnv ["STDCNV.EXE", "sprites.std", "out"]).count = 1897951191 := by
    rw [hcount, h99, hc0]
    rfl
  have he : errorBoxes (main oneFailureEnv ["STDCNV.EXE", "sprites.std", "out"]).calls =
      [saveErrorMsg oneFailureEnv "out" 42] := by
    rw [herr, hbox]
  refine ⟨title_overrun_sprites.1, rfl, ?_, he, hc, ?_, ?_⟩
  · rw [hsave]
    exact hidx
  · rw [hc]
    decide
  · rw [hc, he]
    decide

/-- C5: invoked with an argument count below 3 (0 or 1 positional arguments), `main`
reports the usage message and returns a non-zero code at once, with nothing else
initialised: SDL is not initialised, no window or surface is created, the input file is
not opened and no bitmap is written. With 2 or more positional arguments the usage
branch is not taken. -/
theorem C5_usage_error_initialises_nothing (env : Env) (argv : List String) :
    (argv.length < 3 →
      (main env argv).calls = [usageBox] ∧
      (main env argv).exit = some (-1) ∧ (main env argv).exit ≠ some 0 ∧
      Call.SDL_Init ∉ (main env argv).calls ∧
      (∀ title, Call.SDL_CreateWindow title ∉ (main env argv).calls) ∧
      (∀ index, Call.SDL_CreateRGBSurface index ∉ (main env argv).calls) ∧
      (∀ filename, Call.fopen filename ∉ (main env argv).calls) ∧
      saveCalls (main env argv).calls = [] ∧
      (main env argv).images = [] ∧ (main env argv).count = 0) ∧
    (3 ≤ argv.length → usageBox ∉ (main env argv).calls) := by
  constructor
  · intro h
    have hm : main env argv =
        { calls := [usageBox], images := [], count := 0, exit := some (-1) } := by
      unfold main
      simp only [h, if_true]
    rw [hm]
    refine ⟨rfl, rfl, by decide, ?_, ?_, ?_, ?_, rfl, rfl, rfl⟩
    · simp [usageBox]
    · intro title
      simp [usageBox]
    · intro index
      simp [usageBox]
    · intro filename
      simp [usageBox]
  · intro h hmem
    exact main_calls_ne_usageBox env argv h usageBox hmem rfl

/-- C5, applied to a run with one positional argument. -/
theorem C5_usage_error_initialises_nothing_witness :
    ["STDCNV.EXE", "sprites.std"].length < 3 ∧
    (main missingFileEnv ["STDCNV.EXE", "sprites.std"]).calls = [usageBox] :=
  ⟨by decide,
    ((C5_usage_error_initialises_nothing missingFileEnv ["STDCNV.EXE", "sprites.std"]).1
      (by decide)).1⟩

end SDL2Version

/-! ## The two decoders side by side -/

/-- C8: the two variants do identical decode logic: on every stream that opens, of any
length, the 8-bit value `Load_STD_File` of `main2.cpp` stores at `line[y][x]` of sprite `i`
is each of the R, G and B components that `Load_STD_File` of `SDL2Version.cpp` stores at
position `y*16 + x` of sprite `i`, and both consume the input in the same order: their
reads, and the pixel each read goes to, form the same sequence. -/
theorem C8_variants_decode_alike (fs : FileSystem) (filename : String)
    (bytes : List (Fin 256)) (bitmaps : List Main2.BITMAP)
    (hopen : fs filename = some bytes) (hbitmaps : Main2.BitmapsOK bitmaps) :
    ∃ r2, Main2.Load_STD_File fs filename bitmaps = some r2 ∧
      (∀ i y x, i < 100 → y < 16 → x < 16 → ∃ bmp row v img word,
        r2.images[i]? = some bmp ∧ bmp.line[y]? = some row ∧ row[x]? = some v ∧ v < 256 ∧
        (SDL2Version.Load_STD_File fs filename SDL2Version.createSurfaces).images[i]? =
          some img ∧
        img.pixels[y * 16 + x]? = some word ∧
        SDL2Version.SDL_GetRGBA word img.format = (v, v, v, 255)) ∧
      r2.log.map (fun e => (e.sprite_index, e.y * 16 + e.x, e.read)) =
        (SDL2Version.Load_STD_File fs filename SDL2Version.createSurfaces).log.map
          (fun e => (e.sprite_index, e.pixelPos, e.read)) ∧
      r2.log.map (fun e => e.read) = (List.range 25600).map (readAt bytes) := by
  obtain ⟨images, log, hres, hlog, _, hpix⟩ :=
    Main2.main2_Load_STD_File_opened fs filename bytes bitmaps hopen hbitmaps
  obtain ⟨_, hlog1, _, himg1⟩ :=
    SDL2Version.Load_STD_File_opened fs filename bytes SDL2Version.createSurfaces hopen
      SDL2Version.createSurfaces_ok
  refine ⟨_, hres, ?_, ?_, ?_⟩
  · intro i y x hi hy hx
    obtain ⟨bmp, row, hbmp, hrow, hv⟩ := hpix i y x hi hy hx
    obtain ⟨img0, hi0, hres1⟩ := himg1 i hi
    have hf := SDL2Version.createSurfaces_format i img0 hi0
    refine ⟨bmp, row, _, _,
      SDL2Version.packColor (toUint8 (readAt bytes (i * 256 + y * 16 + x))),
      hbmp, hrow, hv, SDL2Version.toUint8_lt _, hres1, ?_, ?_⟩
    · show (SDL2Version.decodedPixels bytes i)[y * 16 + x]? = _
      rw [SDL2Version.decodedPixels_getElem? bytes i (y * 16 + x) (by omega)]
      have e : i * 256 + (y * 16 + x) = i * 256 + y * 16 + x := by omega
      rw [e]
    · show SDL2Version.SDL_GetRGBA _ img0.format = _
      rw [hf]
      exact SDL2Version.SDL_GetRGBA_packColor _ (SDL2Version.toUint8_lt _)
  · show log.map _ = _
    rw [hlog, hlog1, List.map_map, List.map_map]
    apply List.map_congr_left
    intro n _
    show (n / 256, n % 256 / 16 * 16 + n % 16, readAt bytes n) = (n / 256, n % 256, readAt bytes n)
    have e : n % 256 / 16 * 16 + n % 16 = n % 256 := by omega
    rw [e]
  · show log.map _ = _
    rw [hlog, List.map_map]
    apply List.map_congr_left
    intro n _
    rfl

/-- C8, applied to a 25,600-byte file and to bitmaps that held other pixels before. -/
theorem C8_variants_decode_alike_witness :
    SDL2Version.sampleFs "sprites.std" = some SDL2Version.sampleBytes ∧
    Main2.BitmapsOK Main2.usedBitmaps ∧
    ∃ r2, Main2.Load_STD_File SDL2Version.sampleFs "sprites.std" Main2.usedBitmaps = some r2 ∧
      r2.log.map (fun e => e.read) = (List.range 25600).map (readAt SDL2Version.sampleBytes) :=
  ⟨rfl, Main2.usedBitmaps_ok,
    (C8_variants_decode_alike SDL2Version.sampleFs "sprites.std" SDL2Version.sampleBytes
      Main2.usedBitmaps rfl Main2.usedBitmaps_ok).imp (fun _ h => ⟨h.1, h.2.2.2⟩)⟩

end STDCNV
